import Mathlib

/-!
# Verification of the email triage core (`src/workflows/deterministic_rules.py`,
`src/workflows/email_triage.py`)

This file gives a shallow embedding of the deterministic rule engine, the
label-decision ledger and the triage orchestration loop of the repository,
and proves the specification claims about them.

Rule conditions arrive from YAML as dynamically typed Python values, so we
model the relevant fragment of Python's data model explicitly: a `PyVal`
type for dynamic values, Python truthiness, iteration, `str.lower`, the
`in` operator, and the exceptions (`AttributeError`, `TypeError`,
`ValueError`) that dynamic operations can raise.  Fallible Python code is
embedded as `Except PyErr`.
-/

set_option linter.unusedVariables false

/-- The Python exceptions the embedded code can raise. -/
inductive PyErr where
  | attributeError (msg : String)
  | typeError (msg : String)
  | valueError (msg : String)
  | keyError (msg : String)
deriving DecidableEq

/-- A dynamically typed Python value, as produced by the YAML rule loader:
strings, integers, booleans, lists, string-keyed dicts (in insertion
order, as in Python 3.7+), and `None`. -/
inductive PyVal where
  | str (s : String)
  | int (n : Int)
  | bool (b : Bool)
  | list (xs : List PyVal)
  | dict (xs : List (String × PyVal))
  | none

/-- Python truthiness: `""`, `0`, `False`, `[]`, `{}` and `None` are falsy. -/
def pyTruthy : PyVal → Bool
  | .str s => !s.isEmpty
  | .int n => n != 0
  | .bool b => b
  | .list xs => !xs.isEmpty
  | .dict xs => !xs.isEmpty
  | .none => false

/-- First value stored under key `k` (Python dicts have unique keys, so the
first hit is the value). `Option.none` means the key is absent. -/
def dictFind (d : List (String × PyVal)) (k : String) : Option PyVal :=
  (d.find? (fun kv => kv.1 == k)).map (·.2)

/-- Python `k in d` for a dict. -/
def hasKey (d : List (String × PyVal)) (k : String) : Bool :=
  d.any (fun kv => kv.1 == k)

/-- Python `d.get(k)`: the stored value, or `None` when absent. -/
def dictGet (d : List (String × PyVal)) (k : String) : PyVal :=
  (dictFind d k).getD .none

/-- Python iteration `for x in v`: lists yield their elements, strings yield
their characters as one-character strings, dicts yield their keys; other
values raise `TypeError`. -/
def pyIter : PyVal → Except PyErr (List PyVal)
  | .list xs => .ok xs
  | .str s => .ok (s.data.map (fun c => .str (String.singleton c)))
  | .dict xs => .ok (xs.map (fun kv => .str kv.1))
  | _ => .error (.typeError "object is not iterable")

/-- Python `str.lower()` (ASCII case folding, which covers every string the
repository compares). -/
def strLower (s : String) : String := ⟨s.data.map Char.toLower⟩

/-- Python `v.lower()`: only defined on strings, otherwise `AttributeError`. -/
def pyLower : PyVal → Except PyErr String
  | .str s => .ok (strLower s)
  | _ => .error (.attributeError "object has no attribute lower")

/-- Lower-case every element of an iterated collection (set/list
comprehensions such as the one for `{entry.lower() for entry in allowed}`):
the first non-string element raises, exactly as the comprehension does. -/
def lowerAll : List PyVal → Except PyErr (List String)
  | [] => .ok []
  | v :: rest => do
      let s ← pyLower v
      let ss ← lowerAll rest
      return s :: ss

/-- Python `int(v)` for the values the rule files can hold: ints pass
through, booleans coerce, numeric strings parse, everything else raises. -/
def pyInt : PyVal → Except PyErr Int
  | .int n => .ok n
  | .bool b => .ok (if b then 1 else 0)
  | .str s =>
      match s.toInt? with
      | some n => .ok n
      | Option.none => .error (.valueError "invalid literal for int")
  | _ => .error (.typeError "int argument must be a string or a number")

/-- Substring occurrence on character lists: `needle` is a prefix of some
suffix of `hay`. -/
def listContainsSub (hay needle : List Char) : Bool :=
  if needle.isPrefixOf hay then true
  else
    match hay with
    | [] => false
    | _ :: t => listContainsSub t needle

/-- Python substring test `needle in hay` on strings. -/
def strContains (hay needle : String) : Bool :=
  listContainsSub hay.data needle.data

/-- Python `hay.startswith(needle)`. -/
def strStartsWith (hay needle : String) : Bool :=
  needle.data.isPrefixOf hay.data

/-- Python `hay.endswith(needle)`. -/
def strEndsWith (hay needle : String) : Bool :=
  needle.data.isSuffixOf hay.data

/-- The characters after the first `@`, used by both copies of
`_extract_domain`: `email.split("@", 1)[-1] if "@" in email else ""`. -/
def afterFirstAt : List Char → List Char
  | [] => []
  | c :: cs => if c = '@' then cs else afterFirstAt cs

/-- `RuleContext._extract_domain` / `DeterministicRuleEngine._extract_domain`. -/
def extract_domain (email : String) : String :=
  if email.data.contains '@' then ⟨afterFirstAt email.data⟩ else ""

/-! ## The label-decision ledger (`deterministic_rules.py`, `LabelDecisions`) -/

/-- `LabelDecision` enum: the state of a label decision. -/
inductive LabelDecision where
  | none
  | add
  | exclude
deriving DecidableEq

/-- The `LabelDecisions` dataclass.  `valid_labels : set[str] | None` is
modelled as an optional list (membership only), `label_validator` as an
optional boolean predicate, and the `decisions` dict as an insertion-ordered
association list.  These three fields are the whole per-message state: the
class stores no source/provenance information (`source` arguments are used
only for logging). -/
structure LabelDecisions where
  valid_labels : Option (List String) := Option.none
  label_validator : Option (String → Bool) := Option.none
  decisions : List (String × LabelDecision) := []

/-- Python dict assignment `self.decisions[label] = new_state`: updating an
existing key keeps its position, a new key is appended. -/
def dictSet (d : List (String × LabelDecision)) (k : String) (v : LabelDecision) :
    List (String × LabelDecision) :=
  if d.any (fun kv => kv.1 == k) then
    d.map (fun kv => if kv.1 == k then (kv.1, v) else kv)
  else
    d ++ [(k, v)]

namespace LabelDecisions

/-- `_validate_label`: accept when the truthy `valid_labels` set contains the
label, or when the truthy injected validator accepts it; otherwise raise
`ValueError`. -/
def _validate_label (ld : LabelDecisions) (label : String) : Except PyErr Unit :=
  if (match ld.valid_labels with
      | some vs => !vs.isEmpty && vs.contains label
      | Option.none => false) then
    .ok ()
  else if (match ld.label_validator with
      | some f => f label
      | Option.none => false) then
    .ok ()
  else
    .error (.valueError ("Deterministic rule referenced unknown label '" ++ label ++ "'"))

/-- `self.decisions.get(label, LabelDecision.NONE)`. -/
def get_decision (ld : LabelDecisions) (label : String) : LabelDecision :=
  ((ld.decisions.find? (fun kv => kv.1 == label)).map (·.2)).getD .none

/-- `_update_label`: validate, then write the new state unless it matches the
current one.  The `source` argument is only logged by the Python code, and is
accordingly unused here. -/
def _update_label (ld : LabelDecisions) (label : String) (new_state : LabelDecision)
    (source : String) : Except PyErr LabelDecisions := do
  let _ ← ld._validate_label label
  let previous := ld.get_decision label
  if previous = new_state then
    return ld
  else
    return { ld with decisions := dictSet ld.decisions label new_state }

/-- `add_label`. -/
def add_label (ld : LabelDecisions) (label : String) (source : String) :
    Except PyErr LabelDecisions :=
  ld._update_label label .add source

/-- `exclude_label`. -/
def exclude_label (ld : LabelDecisions) (label : String) (source : String) :
    Except PyErr LabelDecisions :=
  ld._update_label label .exclude source

/-- `pending_additions`: labels currently in `ADD` state, in insertion order. -/
def pending_additions (ld : LabelDecisions) : List String :=
  (ld.decisions.filter (fun kv => kv.2 = .add)).map (·.1)

/-- `excluded_labels`: the set of labels in `EXCLUDE` state (modelled by its
member list). -/
def excluded_labels (ld : LabelDecisions) : List String :=
  (ld.decisions.filter (fun kv => kv.2 = .exclude)).map (·.1)

/-- `is_excluded`. -/
def is_excluded (ld : LabelDecisions) (label : String) : Bool :=
  ld.get_decision label = .exclude

/-- `final_labels`. -/
def final_labels (ld : LabelDecisions) : List String :=
  ld.pending_additions

end LabelDecisions

/-! ## The per-message rule context (`deterministic_rules.py`, `RuleContext`) -/

/-- The `RuleContext` dataclass.  The Python object also carries the mutable
`decisions : LabelDecisions` ledger; in this pure embedding the ledger is
threaded explicitly alongside the context instead.  `existing_labels` and
`my_addresses` are Python sets, modelled by their member lists. -/
structure RuleContext where
  sender : String
  sender_display : String
  subject : String
  content : String
  snippet : String
  «to» : List String
  cc : List String
  bcc : List String
  existing_labels : List String
  my_addresses : List String
  primary_email : String

namespace RuleContext

/-- `__post_init__`: `self.subject_lower = self.subject.lower()`. -/
def subject_lower (c : RuleContext) : String := strLower c.subject

/-- `__post_init__`: `self.content_lower = self.content.lower()`. -/
def content_lower (c : RuleContext) : String := strLower c.content

/-- `__post_init__`: `self.snippet_lower = self.snippet.lower()`. -/
def snippet_lower (c : RuleContext) : String := strLower c.snippet

/-- `__post_init__`: `self.sender_lower = self.sender.lower()`. -/
def sender_lower (c : RuleContext) : String := strLower c.sender

/-- `__post_init__`: `self.all_recipients = [*self.to, *self.cc, *self.bcc]`. -/
def all_recipients (c : RuleContext) : List String := c.«to» ++ c.cc ++ c.bcc

/-- `__post_init__`: `self.primary_domain = self._extract_domain(self.primary_email)`. -/
def primary_domain (c : RuleContext) : String := extract_domain c.primary_email

end RuleContext

/-! ## Condition matchers (`DeterministicRuleEngine._match_*`) -/

/-- The `normalize` helper inside `_match_text`: a bare string becomes a
one-element list, otherwise `list(values or [])`. -/
def normalizeVals (values : PyVal) : Except PyErr (List PyVal) :=
  match values with
  | .str s => .ok [.str s]
  | v => if pyTruthy v then pyIter v else .ok []

/-- `DeterministicRuleEngine._match_text`.  A falsy spec matches, a bare
string is a case-insensitive substring test, a non-dict non-string spec is
`False`, and a dict spec conjoins its present operators. -/
def _match_text (spec : PyVal) (text_value : String) : Except PyErr Bool := do
  if pyTruthy spec = false then return true
  match spec with
  | .str s => return strContains text_value (strLower s)
  | .dict d =>
    if hasKey d "contains_all" then
      let vals ← normalizeVals (dictGet d "contains_all")
      let normalized ← lowerAll vals
      if !normalized.all (fun v => strContains text_value v) then return false
    if hasKey d "contains_any" then
      let vals ← normalizeVals (dictGet d "contains_any")
      let normalized ← lowerAll vals
      if !normalized.any (fun v => strContains text_value v) then return false
    if hasKey d "not_contains" then
      let vals ← normalizeVals (dictGet d "not_contains")
      let normalized ← lowerAll vals
      if normalized.any (fun v => strContains text_value v) then return false
    if hasKey d "starts_with" then
      let vals ← normalizeVals (dictGet d "starts_with")
      let normalized ← lowerAll vals
      if !normalized.any (fun v => strStartsWith text_value v) then return false
    if hasKey d "ends_with" then
      let vals ← normalizeVals (dictGet d "ends_with")
      let normalized ← lowerAll vals
      if !normalized.any (fun v => strEndsWith text_value v) then return false
    if hasKey d "equals_any" then
      let vals ← normalizeVals (dictGet d "equals_any")
      let equals_values ← lowerAll vals
      if !equals_values.contains text_value then return false
    return true
  | _ => return false

/-- `DeterministicRuleEngine._match_sender`.  The spec must support `.get`
(i.e. be a dict); any other payload raises `AttributeError`, exactly as
`spec.get("in")` does in Python. -/
def _match_sender (spec : PyVal) (ctx : RuleContext) : Except PyErr Bool := do
  match spec with
  | .dict d =>
    let value := ctx.sender_lower
    let domain := extract_domain ctx.sender_lower
    let allowed := dictGet d "in"
    if pyTruthy allowed then
      let entries ← pyIter allowed
      let lowered ← lowerAll entries
      if !lowered.contains value then return false
    let blocked := dictGet d "not_in"
    if pyTruthy blocked then
      let entries ← pyIter blocked
      let lowered ← lowerAll entries
      if lowered.contains value then return false
    let domain_in := dictGet d "domains"
    if pyTruthy domain_in then
      let entries ← pyIter domain_in
      let lowered ← lowerAll entries
      if !lowered.contains domain then return false
    let domain_not := dictGet d "domains_not"
    if pyTruthy domain_not then
      let entries ← pyIter domain_not
      let lowered ← lowerAll entries
      if lowered.contains domain then return false
    let contains := dictGet d "contains"
    if pyTruthy contains then
      let r ← _match_text contains value
      if !r then return false
    return true
  | _ => throw (.attributeError "object has no attribute get")

/-- The `any_in` closure inside `_match_recipients`:
`any(addr.lower() in items for addr in addresses)` with
`items = {item.lower() for item in pool}`.  The generator short-circuits, so
a non-string address after a hit never raises. -/
def anyLowerMem (items : List String) : List PyVal → Except PyErr Bool
  | [] => .ok false
  | a :: rest => do
      let s ← pyLower a
      if items.contains s then return true
      anyLowerMem items rest

/-- `any(domain in [d.lower() for d in includes_domains] for domain in domains)`:
the inner list comprehension is re-evaluated per domain and short-circuits. -/
def anyDomainMem (includes_domains : PyVal) : List String → Except PyErr Bool
  | [] => .ok false
  | dom :: rest => do
      let ds ← pyIter includes_domains
      let lowered ← lowerAll ds
      if lowered.contains dom then return true
      anyDomainMem includes_domains rest

/-- The default pattern list in `_looks_like_mailing_list`. -/
def default_mailing_patterns : List String :=
  ["-list@", "@googlegroups.com", "@lists.", "+list@", "newsletter@"]

/-- The pattern loop of `_looks_like_mailing_list`: return at the first truthy
pattern whose lower-cased text occurs in the address; a later bad pattern is
never reached after a hit. -/
def firstPatternHit (address : String) : List PyVal → Except PyErr Bool
  | [] => .ok false
  | p :: rest => do
      if pyTruthy p then
        let s ← pyLower p
        if strContains address (strLower s) then return true
      firstPatternHit address rest

/-- `DeterministicRuleEngine._looks_like_mailing_list`. -/
def _looks_like_mailing_list (address : String) (patterns : PyVal) : Except PyErr Bool := do
  let address := strLower address
  let candidate_patterns ← if pyTruthy patterns then pyIter patterns else pure []
  firstPatternHit address (candidate_patterns ++ default_mailing_patterns.map PyVal.str)

/-- `any(self._looks_like_mailing_list(addr, ...) for addr in recipients)`,
short-circuiting. -/
def anyMailingList (patterns : PyVal) : List String → Except PyErr Bool
  | [] => .ok false
  | addr :: rest => do
      let r ← _looks_like_mailing_list addr patterns
      if r then return true
      anyMailingList patterns rest

/-- `DeterministicRuleEngine._match_recipients`.  Note which operators
compare verbatim and which lower-case: `only_me`, `not_on_to`, `cc_me`,
`to_me` test `addr in my_addresses` / `addr not in my_addresses` on the raw
recipient strings, and `sender_in_recipients` tests the lower-cased sender
against the raw recipient list, while `includes_any` lower-cases both sides
via `any_in`. -/
def _match_recipients (spec : PyVal) (ctx : RuleContext) : Except PyErr Bool := do
  match spec with
  | .dict d =>
    let recipients := ctx.all_recipients
    let total : Int := recipients.length
    let my_addresses := ctx.my_addresses
    let domains := recipients.map extract_domain
    if pyTruthy (dictGet d "only_me") then
      if recipients.isEmpty || recipients.any (fun addr => !my_addresses.contains addr) then
        return false
    if pyTruthy (dictGet d "not_on_to") then
      if ctx.«to».any (fun addr => my_addresses.contains addr) then return false
    if pyTruthy (dictGet d "cc_me") then
      if !ctx.cc.any (fun addr => my_addresses.contains addr) then return false
    if pyTruthy (dictGet d "to_me") then
      if !ctx.«to».any (fun addr => my_addresses.contains addr) then return false
    if hasKey d "total_more_than" then
      let bound ← pyInt (dictGet d "total_more_than")
      if !(total > bound) then return false
    if hasKey d "total_less_than" then
      let bound ← pyInt (dictGet d "total_less_than")
      if !(total < bound) then return false
    let includes_any := dictGet d "includes_any"
    if pyTruthy includes_any then
      let addrs ← pyIter includes_any
      let r ← anyLowerMem (recipients.map strLower) addrs
      if !r then return false
    let includes_domains := dictGet d "includes_domains"
    if pyTruthy includes_domains then
      let r ← anyDomainMem includes_domains domains
      if !r then return false
    if pyTruthy (dictGet d "contains_mailing_list") then
      let r ← anyMailingList (dictGet d "mailing_list_patterns") recipients
      if !r then return false
    let primary_domain := ctx.primary_domain
    if pyTruthy (dictGet d "all_internal") then
      if primary_domain.isEmpty then return false
      if recipients.isEmpty then return false
      if domains.any (fun dom => !dom.isEmpty && dom != primary_domain) then return false
    if pyTruthy (dictGet d "any_external") then
      if primary_domain.isEmpty then return false
      if !domains.any (fun dom => !dom.isEmpty && dom != primary_domain) then return false
    if pyTruthy (dictGet d "sender_in_recipients") then
      if !recipients.contains ctx.sender_lower then return false
    return true
  | _ => throw (.attributeError "object has no attribute get")

/-- Python `k in v` for the label-set spec: dict key membership, list element
equality, string substring; other values raise `TypeError`. -/
def pyInKey (k : String) : PyVal → Except PyErr Bool
  | .dict d => .ok (hasKey d k)
  | .list xs => .ok (xs.any (fun e => match e with | .str s => s == k | _ => false))
  | .str s => .ok (strContains s k)
  | _ => .error (.typeError "argument is not iterable")

/-- Python `v[k]` with a string key: dict lookup (`KeyError` when absent);
string and list subscripts need integer indices and raise `TypeError`. -/
def pyIndexKey (k : String) : PyVal → Except PyErr PyVal
  | .dict d =>
      match dictFind d k with
      | some v => .ok v
      | Option.none => .error (.keyError k)
  | .str _ => .error (.typeError "string indices must be integers")
  | .list _ => .error (.typeError "list indices must be integers")
  | _ => .error (.typeError "object is not subscriptable")

/-- Python `label in labels` where `labels` is a set of strings: hashable
non-string elements (ints, bools, `None`) hash fine and simply compare
unequal, but unhashable elements — lists and dicts — raise `TypeError`
from the hash lookup before any comparison happens. -/
def strSetMember (labels : List String) : PyVal → Except PyErr Bool
  | .str s => .ok (labels.contains s)
  | .list _ => .error (.typeError "unhashable type")
  | .dict _ => .error (.typeError "unhashable type")
  | _ => .ok false

/-- `any(label in labels for label in vs)`: short-circuits at the first
`True`, and propagates the `TypeError` of an unhashable element reached
before that. -/
def anySetMember (labels : List String) : List PyVal → Except PyErr Bool
  | [] => .ok false
  | v :: vs => do
    if ← strSetMember labels v then return true
    anySetMember labels vs

/-- `all(label in labels for label in vs)`: short-circuits at the first
`False`, and propagates the `TypeError` of an unhashable element reached
before that. -/
def allSetMember (labels : List String) : List PyVal → Except PyErr Bool
  | [] => .ok true
  | v :: vs => do
    if ← strSetMember labels v then allSetMember labels vs
    else return false

/-- `DeterministicRuleEngine._match_label_sets`. -/
def _match_label_sets (spec : PyVal) (labels : List String) : Except PyErr Bool := do
  if pyTruthy spec = false then return true
  if ← pyInKey "has_any" spec then
    let vs ← pyIter (← pyIndexKey "has_any" spec)
    if !(← anySetMember labels vs) then return false
  if ← pyInKey "has_all" spec then
    let vs ← pyIter (← pyIndexKey "has_all" spec)
    if !(← allSetMember labels vs) then return false
  if ← pyInKey "missing_all" spec then
    let vs ← pyIter (← pyIndexKey "missing_all" spec)
    if ← anySetMember labels vs then return false
  return true

/-! ## The condition evaluator (`DeterministicRuleEngine._evaluate_condition`) -/

/-- The number of nodes of a value (every constructor and every list cell
counts one).  Used as the recursion budget of the evaluator. -/
def pySize : PyVal → Nat
  | .str _ => 1
  | .int _ => 1
  | .bool _ => 1
  | .none => 1
  | .list [] => 1
  | .list (x :: xs) => 1 + pySize x + pySize (.list xs)
  | .dict [] => 1
  | .dict ((k, v) :: xs) => 1 + pySize v + pySize (.dict xs)

/-! The evaluator is embedded with an explicit recursion budget (`fuel`):
Python recursion over the condition tree always terminates because every
recursive call descends into a sub-value, and `_evaluate_condition` below
instantiates the budget with `pySize condition + 1`, which is never
exhausted: each recursive call spends one unit of fuel while descending
into a strictly `pySize`-smaller value.  The budget makes the definition
structurally recursive, so it evaluates inside the kernel. -/
mutual

/-- `DeterministicRuleEngine._evaluate_condition` (fuel-indexed).  A falsy
condition is an unconditional match; a dict dispatches on the first
recognised key in source order (`all`, `any`, `not`, then the leaf
attributes); any other shape is logged as unsupported and evaluates to
`False`.  `led` is the `context.decisions` ledger, threaded explicitly.

For `all`/`any`, Python iterates `condition["all"]`: a list payload recurses
element-wise; a string payload yields its characters (each a truthy
non-dict sub-condition, evaluating to `False`); a dict payload yields its
keys (a key evaluates to `True` only when it is the empty, falsy string);
other payloads are not iterable and raise `TypeError`. -/
def evalN : Nat → PyVal → RuleContext → LabelDecisions → Except PyErr Bool
  | 0, _, _, _ => .error (.valueError "recursion limit exceeded")
  | fuel + 1, condition, ctx, led =>
    if pyTruthy condition = false then .ok true
    else
      match condition with
      | .dict d =>
        if hasKey d "all" then
          match dictGet d "all" with
          | .list xs => evalConjN fuel xs ctx led
          | .str s => .ok (s.data.all (fun _ => false))
          | .dict entries => .ok (entries.all (fun kv => kv.1.isEmpty))
          | _ => .error (.typeError "object is not iterable")
        else if hasKey d "any" then
          match dictGet d "any" with
          | .list xs => evalDisjN fuel xs ctx led
          | .str s => .ok (s.data.any (fun _ => false))
          | .dict entries => .ok (entries.any (fun kv => kv.1.isEmpty))
          | _ => .error (.typeError "object is not iterable")
        else if hasKey d "not" then
          match evalN fuel (dictGet d "not") ctx led with
          | .ok b => .ok !b
          | .error e => .error e
        else if hasKey d "sender" then
          _match_sender (dictGet d "sender") ctx
        else if hasKey d "subject" then
          _match_text (dictGet d "subject") ctx.subject_lower
        else if hasKey d "body" || hasKey d "content" then
          _match_text
            (if pyTruthy (dictGet d "body") then dictGet d "body" else dictGet d "content")
            ctx.content_lower
        else if hasKey d "snippet" then
          _match_text (dictGet d "snippet") ctx.snippet_lower
        else if hasKey d "recipients" then
          _match_recipients (dictGet d "recipients") ctx
        else if hasKey d "existing_labels" then
          _match_label_sets (dictGet d "existing_labels") ctx.existing_labels
        else if hasKey d "decided_labels" then
          _match_label_sets (dictGet d "decided_labels") led.pending_additions
        else if hasKey d "excluded_labels" then
          _match_label_sets (dictGet d "excluded_labels") led.excluded_labels
        else
          .ok false
      | _ => .ok false

/-- `all(self._evaluate_condition(sub, context) for sub in ...)` over a list
payload: short-circuiting conjunction, stopping at the first `False`. -/
def evalConjN : Nat → List PyVal → RuleContext → LabelDecisions → Except PyErr Bool
  | 0, _, _, _ => .error (.valueError "recursion limit exceeded")
  | fuel + 1, xs, ctx, led =>
    match xs with
    | [] => .ok true
    | x :: rest =>
      match evalN fuel x ctx led with
      | .ok true => evalConjN fuel rest ctx led
      | .ok false => .ok false
      | .error e => .error e

/-- `any(self._evaluate_condition(sub, context) for sub in ...)` over a list
payload: short-circuiting disjunction, stopping at the first `True`. -/
def evalDisjN : Nat → List PyVal → RuleContext → LabelDecisions → Except PyErr Bool
  | 0, _, _, _ => .error (.valueError "recursion limit exceeded")
  | fuel + 1, xs, ctx, led =>
    match xs with
    | [] => .ok false
    | x :: rest =>
      match evalN fuel x ctx led with
      | .ok true => .ok true
      | .ok false => evalDisjN fuel rest ctx led
      | .error e => .error e

end

/-- `DeterministicRuleEngine._evaluate_condition`: the fuel-indexed evaluator
at a budget that is always sufficient (the budget case is unreachable,
since each call descends into a strictly `pySize`-smaller value). -/
def _evaluate_condition (condition : PyVal) (ctx : RuleContext) (led : LabelDecisions) :
    Except PyErr Bool :=
  evalN (pySize condition + 1) condition ctx led


/-! ## Rules and the engine (`DeterministicRule`, `DeterministicRuleEngine`) -/

/-- The `DeterministicRule` dataclass; `conditions = None` is `PyVal.none`. -/
structure DeterministicRule where
  name : String
  description : Option String := Option.none
  conditions : PyVal := PyVal.none
  add_labels : List String := []
  exclude_labels : List String := []
  terminate : Bool := false

namespace DeterministicRuleEngine

/-- `_rule_matches`: a rule with falsy (absent/empty) conditions always
matches, otherwise the condition tree is evaluated. -/
def _rule_matches (rule : DeterministicRule) (ctx : RuleContext) (led : LabelDecisions) :
    Except PyErr Bool :=
  if pyTruthy rule.conditions = false then .ok true
  else _evaluate_condition rule.conditions ctx led

/-- The `for label in rule.add_labels` loop of `_apply_actions`. -/
def applyAddLabels (source : String) (labels : List String) (led : LabelDecisions) :
    Except PyErr LabelDecisions :=
  match labels with
  | [] => .ok led
  | label :: rest => do
      let led ← led.add_label label source
      applyAddLabels source rest led

/-- The `for label in rule.exclude_labels` loop of `_apply_actions`. -/
def applyExcludeLabels (source : String) (labels : List String) (led : LabelDecisions) :
    Except PyErr LabelDecisions :=
  match labels with
  | [] => .ok led
  | label :: rest => do
      let led ← led.exclude_label label source
      applyExcludeLabels source rest led

/-- `_apply_actions`: every `add_labels` entry via
`decisions.add_label(label, source="rule:<name>")`, then every
`exclude_labels` entry via `exclude_label`, in that order. -/
def _apply_actions (rule : DeterministicRule) (led : LabelDecisions) :
    Except PyErr LabelDecisions := do
  let led ← applyAddLabels ("rule:" ++ rule.name) rule.add_labels led
  applyExcludeLabels ("rule:" ++ rule.name) rule.exclude_labels led

/-- `DeterministicRuleEngine.run`: evaluate the rules in order against the
context; a matching rule applies its actions to the ledger, and a matching
rule with `terminate` set stops evaluation immediately with result `True`.
Returns the termination flag together with the threaded ledger (the mutable
`context.decisions` of the Python code). -/
def run (rules : List DeterministicRule) (ctx : RuleContext) (led : LabelDecisions) :
    Except PyErr (Bool × LabelDecisions) :=
  match rules with
  | [] => .ok (false, led)
  | rule :: rest => do
    let is_match ← _rule_matches rule ctx led
    if is_match then do
      let led ← _apply_actions rule led
      if rule.terminate then
        return (true, led)
      else
        run rest ctx led
    else
      run rest ctx led

end DeterministicRuleEngine

/-! ## The triage orchestrator (`email_triage.py`, `EmailTriageWorkflow`) -/

/-- Lexicographic order on strings by character code, as Python compares
strings when sorting. -/
def charsLe : List Char → List Char → Bool
  | [], _ => true
  | _ :: _, [] => false
  | a :: as, b :: bs =>
    if a.val < b.val then true
    else if b.val < a.val then false
    else charsLe as bs

/-- Insertion step of `pySorted`. -/
def insertSorted (x : String) : List String → List String
  | [] => [x]
  | y :: ys => if charsLe x.data y.data then x :: y :: ys else y :: insertSorted x ys

/-- Python `sorted` on a list of strings (insertion sort: a stable
permutation, which is all the development relies on). -/
def pySorted : List String → List String
  | [] => []
  | x :: xs => insertSorted x (pySorted xs)

/-- A candidate message as supplied by the mail collaborator
(`get_inbox_candidates`), plus the `applied_labels` entry that
`_process_email` writes into the message record at line 238. -/
structure Email where
  id : String
  sender : String := ""
  sender_display : String := ""
  subject : String := ""
  content : String := ""
  snippet : String := ""
  «to» : List String := []
  cc : List String := []
  bcc : List String := []
  existing_labels : List String := []
  applied_labels : Option (List String) := Option.none

/-- The injected collaborators and workflow attributes `_process_email`
reads: the model classifier, the Gmail label-apply call and validator, the
valid-label set from the label config, and the mailbox owner's addresses. -/
structure TriageDeps where
  classify : String → String → String → Except PyErr String
  apply_label : String → String → Except PyErr Unit
  label_exists : String → Bool
  valid_labels : List String
  user_addresses : List String
  primary_email : String

/-- Externally visible calls made while processing messages, in order. -/
inductive TriageEvent where
  | classifyCall (sender subject : String)
  | applyLabel (email_id label : String)
deriving DecidableEq

/-- The attributes the `LabelDecisions` class actually defines
(`deterministic_rules.py` lines 20-81): its three dataclass fields and its
eight methods.  `final_label_sources` is not among them. -/
def LabelDecisions.attribute_names : List String :=
  ["valid_labels", "label_validator", "decisions",
   "add_label", "exclude_label", "_update_label", "_validate_label",
   "pending_additions", "excluded_labels", "is_excluded", "final_labels"]

/-- The call `decisions.final_label_sources()` at `email_triage.py` line 252:
Python attribute lookup on a `LabelDecisions` instance succeeds only for a
defined attribute, and `final_label_sources` is not defined, so the call
raises `AttributeError`. -/
def final_label_sources_call (led : LabelDecisions) : Except PyErr (List (String × String)) :=
  if LabelDecisions.attribute_names.contains "final_label_sources" then
    .ok []
  else
    .error (.attributeError "'LabelDecisions' object has no attribute 'final_label_sources'")

/-- The `LabelDecisions(valid_labels=..., label_validator=...)` construction
at the top of `_process_email`. -/
def initial_decisions (deps : TriageDeps) : LabelDecisions :=
  { valid_labels := some deps.valid_labels
    label_validator := some deps.label_exists
    decisions := [] }

/-- The `RuleContext(...)` construction inside `_process_email`. -/
def buildContext (deps : TriageDeps) (email : Email) : RuleContext :=
  { sender := email.sender
    sender_display := email.sender_display
    subject := email.subject
    content := email.content
    snippet := email.snippet
    «to» := email.«to»
    cc := email.cc
    bcc := email.bcc
    existing_labels := email.existing_labels
    my_addresses := deps.user_addresses
    primary_email := deps.primary_email }

/-- Lines 228-235 of `email_triage.py`: if the ledger already excludes the
model's classification, the suggestion is only logged; otherwise it is
recorded via `decisions.add_label(classification, source="llm")`. -/
def reconcile_model_suggestion (led : LabelDecisions) (classification : String) :
    Except PyErr LabelDecisions :=
  if led.is_excluded classification then .ok led
  else led.add_label classification "llm"

/-- The `for label in labels` loop of `_apply_labels`: a label already in the
message's existing labels is skipped, any other label is applied through the
Gmail collaborator (the emitted event records the call, which may raise). -/
def applyLabelsLoop (deps : TriageDeps) (email_id : String) (existing_labels : List String) :
    List String → List TriageEvent × Except PyErr Unit
  | [] => ([], .ok ())
  | label :: rest =>
    if existing_labels.contains label then
      applyLabelsLoop deps email_id existing_labels rest
    else
      match deps.apply_label email_id label with
      | .ok _ =>
        let (tr, r) := applyLabelsLoop deps email_id existing_labels rest
        (.applyLabel email_id label :: tr, r)
      | .error e => ([.applyLabel email_id label], .error e)

/-- `EmailTriageWorkflow._apply_labels`: in dry-run mode nothing is applied;
otherwise each decided label is applied unless already present. -/
def _apply_labels (deps : TriageDeps) (email_id : String) (labels : List String)
    (existing_labels : List String) (dry_run : Bool) :
    List TriageEvent × Except PyErr Unit :=
  if dry_run then ([], .ok ())
  else applyLabelsLoop deps email_id existing_labels labels

/-- `EmailTriageWorkflow._process_email`: build the ledger and context, run
the rule engine, consult the classifier only when no rule terminated,
reconcile its suggestion against the ledger, record `applied_labels` on the
message, apply labels, then read provenance via
`decisions.final_label_sources()`.  Returns the trace of collaborator calls,
the (mutated) message record, and the result or the propagated exception. -/
def _process_email (deps : TriageDeps) (rules : List DeterministicRule) (email : Email)
    (dry_run : Bool) :
    List TriageEvent × Email × Except PyErr (List String × List (String × String)) :=
  let decisions := initial_decisions deps
  let context := buildContext deps email
  match DeterministicRuleEngine.run rules context decisions with
  | .error e => ([], email, .error e)
  | .ok (terminated, led) =>
    let classified : List TriageEvent × Except PyErr LabelDecisions :=
      if terminated then ([], .ok led)
      else
        match deps.classify email.sender email.subject email.content with
        | .error e => ([.classifyCall email.sender email.subject], .error e)
        | .ok classification =>
          ([.classifyCall email.sender email.subject],
           reconcile_model_suggestion led classification)
    match classified with
    | (tr, .error e) => (tr, email, .error e)
    | (tr, .ok led) =>
      let final_labels := led.final_labels
      let email := { email with
        applied_labels := some (pySorted final_labels) }
      let (tr2, applied) := _apply_labels deps email.id final_labels email.existing_labels dry_run
      match applied with
      | .error e => (tr ++ tr2, email, .error e)
      | .ok _ =>
        match final_label_sources_call led with
        | .error e => (tr ++ tr2, email, .error e)
        | .ok label_sources => (tr ++ tr2, email, .ok (final_labels, label_sources))

/-- The per-run counters of `EmailTriageWorkflow.run`. -/
structure RunStats where
  processed : Nat
  succeeded : Nat
  failed : Nat
deriving DecidableEq

/-- The `for email in emails` loop of `EmailTriageWorkflow.run` (lines
103-123): each message increments `processed`; an exception from
`_process_email` is caught at the per-message boundary, increments `failed`,
and the loop continues; a normal return increments `succeeded`. -/
def workflow_run_loop (deps : TriageDeps) (rules : List DeterministicRule) (dry_run : Bool) :
    List Email → RunStats → List TriageEvent → RunStats × List TriageEvent
  | [], stats, tr => (stats, tr)
  | email :: rest, stats, tr =>
    let (tre, _, res) := _process_email deps rules email dry_run
    let stats := { stats with processed := stats.processed + 1 }
    match res with
    | .ok _ =>
      workflow_run_loop deps rules dry_run rest
        { stats with succeeded := stats.succeeded + 1 } (tr ++ tre)
    | .error _ =>
      workflow_run_loop deps rules dry_run rest
        { stats with failed := stats.failed + 1 } (tr ++ tre)

/-! ## Workflow initialisation (`EmailTriageWorkflow.__init__`)

`__init__` loads the label config, constructs the Gmail and LLM clients,
then evaluates `Config.load_email_groups()` and
`DeterministicRuleEngine(rules_data, self.valid_labels, email_groups=...)`.
The `Config` class (`src/core/config.py`) does not define
`load_email_groups`, and `DeterministicRuleEngine.__init__`
(`deterministic_rules.py` lines 129-135) accepts only `rules_data` and
`valid_labels`, so these two source expressions are embedded through
Python's attribute-lookup and keyword-argument rules. -/

namespace Config

/-- The attributes the `Config` class defines (`src/core/config.py`): its
class-level constants and its four classmethods.  `load_email_groups` is not
among them. -/
def attribute_names : List String :=
  ["PROJECT_ROOT", "CONFIG_DIR", "DATA_DIR", "LOGS_DIR",
   "GMAIL_CREDENTIALS_FILE", "GMAIL_TOKEN_FILE", "GMAIL_SCOPES",
   "LLM_MODEL", "LABEL_CONFIG_FILE", "DETERMINISTIC_RULES_FILE",
   "LOG_LEVEL", "LOG_FILE",
   "load_label_config", "load_deterministic_rules",
   "get_triage_addresses", "ensure_directories"]

/-- Python attribute lookup `Config.<name>`: `AttributeError` unless the
class defines the attribute. -/
def getattr (name : String) : Except PyErr Unit :=
  if attribute_names.contains name then .ok ()
  else .error (.attributeError ("type object 'Config' has no attribute '" ++ name ++ "'"))

end Config

/-- The parameters of `DeterministicRuleEngine.__init__`
(`deterministic_rules.py` lines 129-133). -/
def engine_init_params : List String := ["self", "rules_data", "valid_labels"]

/-- Python keyword-argument binding: a call with keyword `kw` raises
`TypeError` unless `kw` names a parameter. -/
def acceptsKeyword (params : List String) (kw : String) : Bool := params.contains kw

/-- The `DeterministicRuleEngine(rules_data, self.valid_labels,
email_groups=self.email_groups)` call in `__init__`. -/
def engine_init_with_email_groups : Except PyErr Unit :=
  if acceptsKeyword engine_init_params "email_groups" then .ok ()
  else .error (.typeError "DeterministicRuleEngine.__init__ got an unexpected keyword argument")

/-- `EmailTriageWorkflow.__init__`, parameterised by the outcomes of its
collaborator calls (label-config load, Gmail client construction, LLM client
construction, rule load), in source order.  The `Config.load_email_groups()`
expression is embedded through `Config.getattr`; the engine construction
through `engine_init_with_email_groups`. -/
def EmailTriageWorkflow_init
    (load_label_config : Except PyErr (List String))
    (gmail_client_init : Except PyErr Unit)
    (llm_client_init : Except PyErr Unit)
    (load_deterministic_rules : Except PyErr (List PyVal)) : Except PyErr Unit := do
  let _valid_labels ← load_label_config
  let _ ← gmail_client_init
  let _ ← llm_client_init
  let _email_groups ← Config.getattr "load_email_groups"
  let _rules_data ← load_deterministic_rules
  let _engine ← engine_init_with_email_groups
  return ()

/-! ## Auxiliary predicates used by the theorems -/

/-- Whether a Python computation returned normally. -/
def isOkE {α : Type} : Except PyErr α → Bool
  | .ok _ => true
  | .error _ => false

/-- Whether a trace contains a model-classifier invocation. -/
def hasClassifyEvent (tr : List TriageEvent) : Bool :=
  tr.any (fun e => match e with | .classifyCall _ _ => true | _ => false)

/-- A string value. -/
def isStrVal : PyVal → Bool
  | .str _ => true
  | _ => false

/-- A payload usable in the comprehensions `{entry.lower() for entry in v}`
guarded by `if v:` — falsy payloads are skipped, strings iterate to
one-character strings, dicts iterate to their (string) keys, and lists must
hold strings. -/
def wsStrIterable (v : PyVal) : Bool :=
  if pyTruthy v = false then true
  else
    match v with
    | .str _ => true
    | .list xs => xs.all isStrVal
    | .dict _ => true
    | _ => false

/-- A text-match spec `_match_text` evaluates without raising: only dict
specs constrain anything (all non-dict specs are total), and each present
operator payload must be iterable into lower-casable values. -/
def wsTextSpec (spec : PyVal) : Bool :=
  match spec with
  | .dict d =>
      (!hasKey d "contains_all" || wsStrIterable (dictGet d "contains_all")) &&
      (!hasKey d "contains_any" || wsStrIterable (dictGet d "contains_any")) &&
      (!hasKey d "not_contains" || wsStrIterable (dictGet d "not_contains")) &&
      (!hasKey d "starts_with" || wsStrIterable (dictGet d "starts_with")) &&
      (!hasKey d "ends_with" || wsStrIterable (dictGet d "ends_with")) &&
      (!hasKey d "equals_any" || wsStrIterable (dictGet d "equals_any"))
  | _ => true

/-- A sender spec `_match_sender` evaluates without raising: it must be a
dict (anything else raises `AttributeError` at `spec.get`), with
well-shaped operator payloads. -/
def wsSenderSpec (spec : PyVal) : Bool :=
  match spec with
  | .dict d =>
      wsStrIterable (dictGet d "in") && wsStrIterable (dictGet d "not_in") &&
      wsStrIterable (dictGet d "domains") && wsStrIterable (dictGet d "domains_not") &&
      wsTextSpec (dictGet d "contains")
  | _ => false

/-- A payload `int(v)` accepts. -/
def wsIntPayload (v : PyVal) : Bool :=
  match pyInt v with
  | .ok _ => true
  | .error _ => false

/-- A `mailing_list_patterns` payload the pattern loop never raises on:
falsy patterns are skipped, truthy entries must be strings. -/
def wsMailPatterns (v : PyVal) : Bool :=
  if pyTruthy v = false then true
  else
    match v with
    | .str _ => true
    | .dict _ => true
    | .list xs => xs.all (fun x => !pyTruthy x || isStrVal x)
    | _ => false

/-- A recipients spec `_match_recipients` evaluates without raising: a dict
with int-coercible count bounds and iterable address/domain/pattern lists. -/
def wsRecipientsSpec (spec : PyVal) : Bool :=
  match spec with
  | .dict d =>
      (!hasKey d "total_more_than" || wsIntPayload (dictGet d "total_more_than")) &&
      (!hasKey d "total_less_than" || wsIntPayload (dictGet d "total_less_than")) &&
      wsStrIterable (dictGet d "includes_any") &&
      wsStrIterable (dictGet d "includes_domains") &&
      wsMailPatterns (dictGet d "mailing_list_patterns")
  | _ => false

/-- An iterable value. -/
def isIterableVal : PyVal → Bool
  | .str _ => true
  | .list _ => true
  | .dict _ => true
  | _ => false

/-- A label-set operator payload whose set-membership loop never raises: it
is iterated unconditionally (no `if payload:` guard in `_match_label_sets`),
so it must be iterable, and a list payload must hold only strings — an
unhashable element (list, dict) raises `TypeError` from `label in labels`.
Strings iterate to one-character strings and dicts to their string keys,
both hashable. -/
def wsLabelPayload : PyVal → Bool
  | .str _ => true
  | .dict _ => true
  | .list xs => xs.all isStrVal
  | _ => false

/-- A label-set spec `_match_label_sets` evaluates without raising: falsy, or
a dict whose present operator payloads iterate to hashable (string)
elements. -/
def wsLabelSpec (spec : PyVal) : Bool :=
  if pyTruthy spec = false then true
  else
    match spec with
    | .dict d =>
        (!hasKey d "has_any" || wsLabelPayload (dictGet d "has_any")) &&
        (!hasKey d "has_all" || wsLabelPayload (dictGet d "has_all")) &&
        (!hasKey d "missing_all" || wsLabelPayload (dictGet d "missing_all"))
    | _ => false

/-! Well-shapedness of a whole condition tree (fuel-indexed alongside
`evalN`): every leaf reachable by the dispatch has a well-shaped payload, and
`all`/`any` payloads that are lists contain well-shaped sub-conditions. -/
mutual

/-- Well-shapedness of a condition at a recursion budget (see the section
comment above). -/
def wsN : Nat → PyVal → Bool
  | 0, _ => false
  | fuel + 1, condition =>
    if pyTruthy condition = false then true
    else
      match condition with
      | .dict d =>
        if hasKey d "all" then
          match dictGet d "all" with
          | .list xs => wsListN fuel xs
          | .str _ => true
          | .dict _ => true
          | _ => false
        else if hasKey d "any" then
          match dictGet d "any" with
          | .list xs => wsListN fuel xs
          | .str _ => true
          | .dict _ => true
          | _ => false
        else if hasKey d "not" then wsN fuel (dictGet d "not")
        else if hasKey d "sender" then wsSenderSpec (dictGet d "sender")
        else if hasKey d "subject" then wsTextSpec (dictGet d "subject")
        else if hasKey d "body" || hasKey d "content" then
          wsTextSpec (if pyTruthy (dictGet d "body") then dictGet d "body" else dictGet d "content")
        else if hasKey d "snippet" then wsTextSpec (dictGet d "snippet")
        else if hasKey d "recipients" then wsRecipientsSpec (dictGet d "recipients")
        else if hasKey d "existing_labels" then wsLabelSpec (dictGet d "existing_labels")
        else if hasKey d "decided_labels" then wsLabelSpec (dictGet d "decided_labels")
        else if hasKey d "excluded_labels" then wsLabelSpec (dictGet d "excluded_labels")
        else true
      | _ => true

/-- Well-shapedness of every condition in an `all`/`any` list payload. -/
def wsListN : Nat → List PyVal → Bool
  | 0, _ => false
  | _ + 1, [] => true
  | fuel + 1, x :: rest => wsN fuel x && wsListN fuel rest

end

/-- Well-shapedness of a condition, at the evaluator's own recursion budget. -/
def WellShapedCond (condition : PyVal) : Bool := wsN (pySize condition + 1) condition

/-- The set of attribute keys the dispatch of `_evaluate_condition`
recognises. -/
def recognizedKeys : List String :=
  ["all", "any", "not", "sender", "subject", "body", "content", "snippet",
   "recipients", "existing_labels", "decided_labels", "excluded_labels"]

/-- A dict condition whose keys the dispatch does not recognise. -/
def hasRecognizedKey (d : List (String × PyVal)) : Bool :=
  recognizedKeys.any (fun k => hasKey d k)

/-- A dict value. -/
def isDictVal : PyVal → Bool
  | .dict _ => true
  | _ => false

/-! ## Concrete fixtures used by the claim theorems and witnesses -/

/-- A mailbox context mirroring the repository's test fixtures. -/
def ctxFix : RuleContext :=
  { sender := "boss@example.com", sender_display := "Boss <boss@example.com>",
    subject := "Need your input", content := "Can you review this proposal?",
    snippet := "Can you review...",
    «to» := ["triager@example.com"], cc := [], bcc := [],
    existing_labels := [], my_addresses := ["triager@example.com"],
    primary_email := "triager@example.com" }

/-- A context whose `to` entry differs from an owner address only in letter
case. -/
def ctxUpperFix : RuleContext := { ctxFix with «to» := ["TRIAGER@example.com"] }

/-- A fresh ledger over the test label catalogue. -/
def ledFix : LabelDecisions :=
  { valid_labels := some ["VIP", "response-required", "fyi", "transactional"],
    label_validator := Option.none, decisions := [] }

/-- Collaborators mirroring `test_workflow_handles_email_failure`: the
classifier answers `response-required` for the first sender and raises for
the second; label application always succeeds; every label exists. -/
def depsFix : TriageDeps :=
  { classify := fun sender _ _ =>
      if sender == "boss@example.com" then .ok "response-required"
      else .error (.valueError "LLM error")
    apply_label := fun _ _ => .ok ()
    label_exists := fun _ => true
    valid_labels := ["VIP", "response-required", "fyi", "transactional"]
    user_addresses := ["triager@example.com"]
    primary_email := "triager@example.com" }

/-- Collaborators whose classifier always suggests `fyi`. -/
def depsFyi : TriageDeps := { depsFix with classify := fun _ _ _ => .ok "fyi" }

/-- First test message (`msg_1`). -/
def emailFix1 : Email :=
  { id := "msg_1", sender := "boss@example.com", sender_display := "Boss <boss@example.com>",
    subject := "Need your input", content := "Can you review this proposal?",
    snippet := "Can you review...", «to» := ["triager@example.com"] }

/-- Second test message (`msg_2`). -/
def emailFix2 : Email :=
  { id := "msg_2", sender := "noreply@service.com",
    sender_display := "Service <noreply@service.com>",
    subject := "Your order shipped", content := "Tracking number: 12345",
    snippet := "Tracking number...", «to» := ["triager@example.com"] }

/-- An unconditional rule adding `fyi` (no termination). -/
def ruleAddFyi : DeterministicRule := { name := "tag-fyi", add_labels := ["fyi"] }

/-- An unconditional rule adding `VIP` and terminating. -/
def ruleStop : DeterministicRule := { name := "auto-stop", add_labels := ["VIP"], terminate := true }

/-- An unconditional rule after the terminating one; it must never run. -/
def ruleLater : DeterministicRule := { name := "later", add_labels := ["transactional"] }

/-- An unconditional rule excluding `fyi` (mirrors the `drop-fyi` test rule). -/
def ruleDropFyi : DeterministicRule := { name := "drop-fyi", exclude_labels := ["fyi"] }

/-! ## Helper lemmas -/

/-- `Except` bind on a normal result. -/
@[simp] theorem pyBind_ok {α β : Type} (a : α) (f : α → Except PyErr β) :
    (Except.ok a >>= f) = f a := rfl

/-- `Except` bind on a raised exception. -/
@[simp] theorem pyBind_error {α β : Type} (e : PyErr) (f : α → Except PyErr β) :
    ((Except.error e : Except PyErr α) >>= f) = .error e := rfl

/-- `pure` into the `Except` monad. -/
@[simp] theorem pyPure_def {α : Type} (a : α) : (pure a : Except PyErr α) = .ok a := rfl

/-- The ledger class defines no `final_label_sources` attribute, so the
orchestrator's provenance read always raises `AttributeError`. -/
theorem final_label_sources_call_error (led : LabelDecisions) :
    final_label_sources_call led =
      .error (.attributeError "'LabelDecisions' object has no attribute 'final_label_sources'") :=
  rfl

/-- Membership through the insertion step of `pySorted`. -/
theorem mem_insertSorted {x a : String} {l : List String} :
    x ∈ insertSorted a l ↔ x = a ∨ x ∈ l := by
  induction l with
  | nil => simp [insertSorted]
  | cons y ys ih =>
    simp only [insertSorted]
    split
    · simp
    · simp [ih]
      tauto

/-- `pySorted` is a permutation as far as membership is concerned. -/
theorem mem_pySorted {x : String} {l : List String} : x ∈ pySorted l ↔ x ∈ l := by
  induction l with
  | nil => simp [pySorted]
  | cons y ys ih => simp [pySorted, mem_insertSorted, ih]

/-- `dictSet` preserves key uniqueness (the Python-dict invariant). -/
theorem dictSet_keys_nodup {d : List (String × LabelDecision)} {k : String} {v : LabelDecision}
    (h : (d.map Prod.fst).Nodup) : ((dictSet d k v).map Prod.fst).Nodup := by
  unfold dictSet
  split
  · have heq : (d.map (fun kv => if kv.1 == k then (kv.1, v) else kv)).map Prod.fst
        = d.map Prod.fst := by
      rw [List.map_map]
      apply List.map_congr_left
      intro kv _
      simp only [Function.comp_apply]
      split <;> rfl
    rw [heq]
    exact h
  · rename_i hna
    have hk : k ∉ d.map Prod.fst := by
      intro hmem
      apply hna
      rw [List.mem_map] at hmem
      obtain ⟨kv, hkv, hfst⟩ := hmem
      exact List.any_eq_true.mpr ⟨kv, hkv, by simp [hfst]⟩
    simp only [List.map_append, List.map_cons, List.map_nil]
    simp [List.nodup_append, h, hk]

/-- `_update_label` preserves key uniqueness. -/
theorem update_label_keys_nodup {ld ld' : LabelDecisions} {label : String}
    {st : LabelDecision} {src : String}
    (h : ld._update_label label st src = .ok ld')
    (hn : (ld.decisions.map Prod.fst).Nodup) : (ld'.decisions.map Prod.fst).Nodup := by
  unfold LabelDecisions._update_label at h
  cases hv : ld._validate_label label with
  | error e => simp [hv] at h
  | ok u =>
    simp [hv] at h
    split at h
    · cases h
      exact hn
    · cases h
      exact dictSet_keys_nodup hn

/-- `add_label` preserves key uniqueness. -/
theorem add_label_keys_nodup {ld ld' : LabelDecisions} {label src : String}
    (h : ld.add_label label src = .ok ld')
    (hn : (ld.decisions.map Prod.fst).Nodup) : (ld'.decisions.map Prod.fst).Nodup :=
  update_label_keys_nodup h hn

/-- `exclude_label` preserves key uniqueness. -/
theorem exclude_label_keys_nodup {ld ld' : LabelDecisions} {label src : String}
    (h : ld.exclude_label label src = .ok ld')
    (hn : (ld.decisions.map Prod.fst).Nodup) : (ld'.decisions.map Prod.fst).Nodup :=
  update_label_keys_nodup h hn

/-- The add-labels loop preserves key uniqueness. -/
theorem applyAddLabels_keys_nodup {src : String} {labels : List String}
    {ld ld' : LabelDecisions}
    (h : DeterministicRuleEngine.applyAddLabels src labels ld = .ok ld')
    (hn : (ld.decisions.map Prod.fst).Nodup) : (ld'.decisions.map Prod.fst).Nodup := by
  induction labels generalizing ld with
  | nil =>
    simp [DeterministicRuleEngine.applyAddLabels] at h
    cases h
    exact hn
  | cons l rest ih =>
    simp only [DeterministicRuleEngine.applyAddLabels] at h
    cases hstep : ld.add_label l src with
    | error e => simp [hstep] at h
    | ok ld1 =>
      simp [hstep] at h
      exact ih h (add_label_keys_nodup hstep hn)

/-- The exclude-labels loop preserves key uniqueness. -/
theorem applyExcludeLabels_keys_nodup {src : String} {labels : List String}
    {ld ld' : LabelDecisions}
    (h : DeterministicRuleEngine.applyExcludeLabels src labels ld = .ok ld')
    (hn : (ld.decisions.map Prod.fst).Nodup) : (ld'.decisions.map Prod.fst).Nodup := by
  induction labels generalizing ld with
  | nil =>
    simp [DeterministicRuleEngine.applyExcludeLabels] at h
    cases h
    exact hn
  | cons l rest ih =>
    simp only [DeterministicRuleEngine.applyExcludeLabels] at h
    cases hstep : ld.exclude_label l src with
    | error e => simp [hstep] at h
    | ok ld1 =>
      simp [hstep] at h
      exact ih h (exclude_label_keys_nodup hstep hn)

/-- `_apply_actions` preserves key uniqueness. -/
theorem apply_actions_keys_nodup {rule : DeterministicRule} {ld ld' : LabelDecisions}
    (h : DeterministicRuleEngine._apply_actions rule ld = .ok ld')
    (hn : (ld.decisions.map Prod.fst).Nodup) : (ld'.decisions.map Prod.fst).Nodup := by
  unfold DeterministicRuleEngine._apply_actions at h
  cases hstep : DeterministicRuleEngine.applyAddLabels ("rule:" ++ rule.name) rule.add_labels ld with
  | error e => simp [hstep] at h
  | ok ld1 =>
    simp [hstep] at h
    exact applyExcludeLabels_keys_nodup h (applyAddLabels_keys_nodup hstep hn)

/-- The engine's `run` preserves key uniqueness of the ledger. -/
theorem run_keys_nodup {rules : List DeterministicRule} {ctx : RuleContext}
    {ld ld' : LabelDecisions} {t : Bool}
    (h : DeterministicRuleEngine.run rules ctx ld = .ok (t, ld'))
    (hn : (ld.decisions.map Prod.fst).Nodup) : (ld'.decisions.map Prod.fst).Nodup := by
  induction rules generalizing ld with
  | nil =>
    simp [DeterministicRuleEngine.run] at h
    cases h.2
    exact hn
  | cons rule rest ih =>
    simp only [DeterministicRuleEngine.run] at h
    cases hm : DeterministicRuleEngine._rule_matches rule ctx ld with
    | error e => simp [hm] at h
    | ok m =>
      simp [hm] at h
      by_cases hmb : m = true
      · subst hmb
        simp at h
        cases ha : DeterministicRuleEngine._apply_actions rule ld with
        | error e => simp [ha] at h
        | ok ld1 =>
          simp [ha] at h
          by_cases ht : rule.terminate = true
          · simp [ht] at h
            obtain ⟨h1, h2⟩ := h
            subst h2
            exact apply_actions_keys_nodup ha hn
          · simp [ht] at h
            exact ih h (apply_actions_keys_nodup ha hn)
      · simp [hmb] at h
        exact ih h hn

/-- With unique keys (the Python-dict invariant, established by
`run_keys_nodup`), a label the ledger currently excludes cannot appear in
`final_labels`. -/
theorem is_excluded_not_mem_final {ld : LabelDecisions} {L : String}
    (hn : (ld.decisions.map Prod.fst).Nodup)
    (hex : ld.is_excluded L = true) : L ∉ ld.final_labels := by
  intro hmem
  simp only [LabelDecisions.final_labels, LabelDecisions.pending_additions, List.mem_map,
    List.mem_filter] at hmem
  obtain ⟨kv, ⟨hkvmem, hkvadd⟩, hkvfst⟩ := hmem
  unfold LabelDecisions.is_excluded LabelDecisions.get_decision at hex
  cases hf : List.find? (fun kv => kv.1 == L) ld.decisions with
  | none => simp [hf] at hex
  | some kv' =>
    simp only [hf, Option.map_some', Option.getD_some] at hex
    have hkv'mem : kv' ∈ ld.decisions := List.mem_of_find?_eq_some hf
    have hkv'fst : kv'.1 = L := by
      have := List.find?_some hf
      simpa using this
    have heq : kv = kv' :=
      List.inj_on_of_nodup_map hn hkvmem hkv'mem (by rw [hkvfst, hkv'fst])
    rw [← heq] at hex
    simp only [decide_eq_true_eq] at hkvadd hex
    rw [hkvadd] at hex
    cases hex

/-- Once a prefix of the rule list has run without terminating and the next
rule matches with `terminate` set, the whole run stops there: the result is
termination with that rule's ledger, whatever rules follow. -/
theorem run_append_of_terminate {pre post : List DeterministicRule} {r : DeterministicRule}
    {ctx : RuleContext} {led0 led1 led2 : LabelDecisions}
    (hpre : DeterministicRuleEngine.run pre ctx led0 = .ok (false, led1))
    (hm : DeterministicRuleEngine._rule_matches r ctx led1 = .ok true)
    (ht : r.terminate = true)
    (ha : DeterministicRuleEngine._apply_actions r led1 = .ok led2) :
    DeterministicRuleEngine.run (pre ++ r :: post) ctx led0 = .ok (true, led2) := by
  induction pre generalizing led0 with
  | nil =>
    simp only [DeterministicRuleEngine.run, Except.ok.injEq, Prod.mk.injEq, true_and] at hpre
    subst hpre
    simp [DeterministicRuleEngine.run, hm, ht, ha]
  | cons rule rest ih =>
    simp only [List.cons_append, DeterministicRuleEngine.run] at hpre ⊢
    cases hmm : DeterministicRuleEngine._rule_matches rule ctx led0 with
    | error e => simp [hmm] at hpre
    | ok m =>
      simp only [hmm, pyBind_ok] at hpre ⊢
      by_cases hmb : m = true
      · subst hmb
        simp only [if_true] at hpre ⊢
        cases haa : DeterministicRuleEngine._apply_actions rule led0 with
        | error e => simp [haa] at hpre
        | ok ldm =>
          simp only [haa, pyBind_ok] at hpre ⊢
          by_cases htt : rule.terminate = true
          · simp [htt] at hpre
          · simp only [htt, if_false, Bool.false_eq_true] at hpre ⊢
            exact ih hpre
      · simp only [hmb, if_false] at hpre ⊢
        exact ih hpre

/-- The label-apply loop emits only `applyLabel` events. -/
theorem applyLabelsLoop_no_classify (deps : TriageDeps) (email_id : String)
    (existing_labels : List String) (labels : List String) :
    hasClassifyEvent (applyLabelsLoop deps email_id existing_labels labels).1 = false := by
  induction labels with
  | nil => simp [applyLabelsLoop, hasClassifyEvent]
  | cons l rest ih =>
    simp only [applyLabelsLoop]
    split
    · exact ih
    · cases happ : deps.apply_label email_id l with
      | ok u => simpa [hasClassifyEvent, happ] using ih
      | error e => simp [hasClassifyEvent, happ]

/-- `_apply_labels` emits only `applyLabel` events. -/
theorem apply_labels_no_classify (deps : TriageDeps) (email_id : String)
    (labels existing_labels : List String) (dry_run : Bool) :
    hasClassifyEvent (_apply_labels deps email_id labels existing_labels dry_run).1 = false := by
  unfold _apply_labels
  split
  · simp [hasClassifyEvent]
  · exact applyLabelsLoop_no_classify deps email_id existing_labels labels

/-- When the rule engine reports termination, `_process_email` never invokes
the model classifier. -/
theorem process_email_no_classify {deps : TriageDeps} {rules : List DeterministicRule}
    {email : Email} {dry_run : Bool} {led : LabelDecisions}
    (hrun : DeterministicRuleEngine.run rules (buildContext deps email)
      (initial_decisions deps) = .ok (true, led)) :
    hasClassifyEvent (_process_email deps rules email dry_run).1 = false := by
  unfold _process_email
  dsimp only
  rw [hrun]
  have hnc := apply_labels_no_classify deps email.id led.final_labels email.existing_labels dry_run
  cases happ2 : (_apply_labels deps email.id led.final_labels email.existing_labels dry_run).2 with
  | error e =>
    simp only [if_true, happ2]
    simpa [hasClassifyEvent] using hnc
  | ok u =>
    simp only [if_true, happ2, final_label_sources_call_error]
    simpa [hasClassifyEvent] using hnc

/-! ## The claims -/

/-- **C1**: if some rule whose condition matches has `terminate=true`, rule
evaluation stops at the first such rule: after a non-terminating prefix, a
matching terminating rule fixes the run's result — termination reported,
ledger as of that rule — independently of every later rule (no later
condition is evaluated, no later action applied), and `_process_email` never
invokes the model classifier for a message whose rule run reported
termination. -/
theorem c1_termination_law :
    (∀ (pre post : List DeterministicRule) (r : DeterministicRule) (ctx : RuleContext)
        (led0 led1 led2 : LabelDecisions),
      DeterministicRuleEngine.run pre ctx led0 = .ok (false, led1) →
      DeterministicRuleEngine._rule_matches r ctx led1 = .ok true →
      r.terminate = true →
      DeterministicRuleEngine._apply_actions r led1 = .ok led2 →
      DeterministicRuleEngine.run (pre ++ r :: post) ctx led0 = .ok (true, led2)) ∧
    (∀ (deps : TriageDeps) (rules : List DeterministicRule) (email : Email) (dry_run : Bool)
        (led : LabelDecisions),
      DeterministicRuleEngine.run rules (buildContext deps email) (initial_decisions deps) =
        .ok (true, led) →
      hasClassifyEvent (_process_email deps rules email dry_run).1 = false) :=
  ⟨fun _ _ _ _ _ _ _ hpre hm ht ha => run_append_of_terminate hpre hm ht ha,
   fun _ _ _ _ _ hrun => process_email_no_classify hrun⟩

/-- Witness for **C1** at concrete inputs: the terminating `auto-stop` rule
freezes the run before the `later` rule, and no classifier call appears in
the trace. -/
theorem c1_termination_law_witness :
    DeterministicRuleEngine.run ([ruleAddFyi] ++ ruleStop :: [ruleLater]) ctxFix ledFix =
      .ok (true, { ledFix with decisions := [("fyi", .add), ("VIP", .add)] }) ∧
    hasClassifyEvent (_process_email depsFix [ruleAddFyi, ruleStop, ruleLater] emailFix1 false).1 =
      false :=
  ⟨c1_termination_law.1 [ruleAddFyi] [ruleLater] ruleStop ctxFix ledFix
      { ledFix with decisions := [("fyi", .add)] }
      { ledFix with decisions := [("fyi", .add), ("VIP", .add)] }
      (by rfl) (by rfl) (by rfl) (by rfl),
   c1_termination_law.2 depsFix [ruleAddFyi, ruleStop, ruleLater] emailFix1 false
      { initial_decisions depsFix with decisions := [("fyi", .add), ("VIP", .add)] }
      (by rfl)⟩

/-- **C2**: when the rule run leaves label `L` excluded in the ledger and the
classifier then suggests `L`, the suggestion is discarded — the reconcile step
returns the ledger unchanged (the exclude is not overridden, no add is
recorded) — `final_labels()` does not contain `L`, and the labels recorded on
the processed message do not contain `L`. -/
theorem c2_exclude_beats_model :
    ∀ (deps : TriageDeps) (rules : List DeterministicRule) (email : Email) (dry_run : Bool)
      (led : LabelDecisions) (L : String),
      DeterministicRuleEngine.run rules (buildContext deps email) (initial_decisions deps) =
        .ok (false, led) →
      led.is_excluded L = true →
      deps.classify email.sender email.subject email.content = .ok L →
      reconcile_model_suggestion led L = .ok led ∧
      L ∉ led.final_labels ∧
      ∃ ls, (_process_email deps rules email dry_run).2.1.applied_labels = some ls ∧ L ∉ ls := by
  intro deps rules email dry_run led L hrun hex hcls
  have hnodup : (led.decisions.map Prod.fst).Nodup :=
    run_keys_nodup hrun (by simp [initial_decisions])
  have hfin : L ∉ led.final_labels := is_excluded_not_mem_final hnodup hex
  have hrec : reconcile_model_suggestion led L = .ok led := by
    simp [reconcile_model_suggestion, hex]
  refine ⟨hrec, hfin, ?_⟩
  unfold _process_email
  dsimp only
  rw [hrun]
  simp only [Bool.false_eq_true, if_false, hcls, hrec]
  refine ⟨pySorted led.final_labels, ?_, ?_⟩
  · cases happ2 : (_apply_labels deps email.id led.final_labels email.existing_labels dry_run).2 with
    | error e => simp [happ2]
    | ok u =>
      simp only [happ2, final_label_sources_call_error]
  · rw [mem_pySorted]
    exact hfin

/-- Witness for **C2** at concrete inputs: the `drop-fyi` rule excludes
`fyi`, the classifier suggests `fyi`, and the suggestion is discarded. -/
theorem c2_exclude_beats_model_witness :
    reconcile_model_suggestion
        { initial_decisions depsFyi with decisions := [("fyi", .exclude)] } "fyi" =
      .ok { initial_decisions depsFyi with decisions := [("fyi", .exclude)] } ∧
    "fyi" ∉ LabelDecisions.final_labels
        { initial_decisions depsFyi with decisions := [("fyi", .exclude)] } ∧
    ∃ ls, (_process_email depsFyi [ruleDropFyi] emailFix1 false).2.1.applied_labels = some ls ∧
      "fyi" ∉ ls :=
  c2_exclude_beats_model depsFyi [ruleDropFyi] emailFix1 false
    { initial_decisions depsFyi with decisions := [("fyi", .exclude)] } "fyi"
    (by rfl) (by rfl) (by rfl)

/-- **C3** (evidence for the code bug): `decide(VIP, add, "rule:A")` followed
by `decide(VIP, exclude, "rule:B")` does leave the label in state `exclude`
— the first conjunct exhibits the *entire* resulting ledger state, which
holds only the decision map and no provenance (the `source` strings are only
logged and discarded by `_update_label`) — and the orchestrator's provenance
read `decisions.final_label_sources()` raises `AttributeError` because
`LabelDecisions` defines no such attribute. -/
theorem c3_override_state_without_provenance :
    (ledFix.add_label "VIP" "rule:A" >>= fun ld => ld.exclude_label "VIP" "rule:B") =
      .ok { ledFix with decisions := [("VIP", .exclude)] } ∧
    ({ ledFix with decisions := [("VIP", .exclude)] } : LabelDecisions).is_excluded "VIP" = true ∧
    final_label_sources_call { ledFix with decisions := [("VIP", .exclude)] } =
      .error (.attributeError "'LabelDecisions' object has no attribute 'final_label_sources'") :=
  ⟨rfl, rfl, rfl⟩

/-- **C4**: a label name rejected by both the known-valid set and the
injected validator (that is precisely when `_validate_label` raises) makes
`decide` — `_update_label`, and hence `add_label` and `exclude_label` — fail
with the configuration `ValueError`.  The exception propagates before the
`decisions[label] = new_state` write, so the ledger any caller goes on to
observe is the original one: the invalid label and every other label keep
exactly their prior decision state. -/
theorem c4_invalid_label_config_error :
    ∀ (ld : LabelDecisions) (label : String) (st : LabelDecision) (src : String) (e : PyErr),
      ld._validate_label label = .error e →
      ld._update_label label st src = .error e ∧
      ld.add_label label src = .error e ∧
      ld.exclude_label label src = .error e := by
  intro ld label st src e hv
  have h : ∀ st', ld._update_label label st' src = .error e := by
    intro st'
    unfold LabelDecisions._update_label
    rw [hv]
    simp
  exact ⟨h st, h .add, h .exclude⟩

/-- Witness for **C4** at a concrete input: `bogus` is outside the valid set
and there is no validator, so every decide call fails with the configuration
error. -/
theorem c4_invalid_label_config_error_witness :
    ledFix._update_label "bogus" .add "rule:r" =
      .error (.valueError "Deterministic rule referenced unknown label 'bogus'") ∧
    ledFix.add_label "bogus" "rule:r" =
      .error (.valueError "Deterministic rule referenced unknown label 'bogus'") ∧
    ledFix.exclude_label "bogus" "rule:r" =
      .error (.valueError "Deterministic rule referenced unknown label 'bogus'") :=
  c4_invalid_label_config_error ledFix "bogus" .add "rule:r"
    (.valueError "Deterministic rule referenced unknown label 'bogus'") (by rfl)

/-- **C6** (evidence for the code bug): the batch of
`test_workflow_handles_email_failure` — first message classified normally,
second raising during model classification.  The per-message boundary itself
works: both messages are processed, the second is reached after the first's
exception, and the first message's label-apply call happens before the
second message's classify call.  But the run reports
`processed=2, succeeded=0, failed=2`, not the claimed (and tested)
`succeeded=1, failed=1`, because `_process_email` raises `AttributeError`
at `decisions.final_label_sources()` after applying the first message's
labels. -/
theorem c6_batch_counts_at_failure :
    workflow_run_loop depsFix [] false [emailFix1, emailFix2] ⟨0, 0, 0⟩ [] =
      (⟨2, 0, 2⟩,
       [.classifyCall "boss@example.com" "Need your input",
        .applyLabel "msg_1" "response-required",
        .classifyCall "noreply@service.com" "Your order shipped"]) :=
  rfl

/-- **C7** (evidence for the code bug): no call of `_process_email` ever
returns normally — for every input the per-message outcome is an exception,
because the final step reads provenance through
`decisions.final_label_sources()`, an attribute `LabelDecisions` does not
define, so the claimed provenance mapping is never produced. -/
theorem c7_no_outcome_with_provenance :
    ∀ (deps : TriageDeps) (rules : List DeterministicRule) (email : Email) (dry_run : Bool),
      isOkE (_process_email deps rules email dry_run).2.2 = false := by
  intro deps rules email dry_run
  unfold _process_email
  dsimp only
  simp only [final_label_sources_call_error]
  cases hrun : DeterministicRuleEngine.run rules (buildContext deps email)
      (initial_decisions deps) with
  | error e => rfl
  | ok p =>
    obtain ⟨terminated, led⟩ := p
    cases terminated with
    | true =>
      simp only [if_true]
      cases happ : (_apply_labels deps email.id led.final_labels email.existing_labels
          dry_run).2 with
      | error e => simp [isOkE]
      | ok u => simp [isOkE]
    | false =>
      simp only [Bool.false_eq_true, if_false]
      cases hcl : deps.classify email.sender email.subject email.content with
      | error e => simp [isOkE]
      | ok c =>
        cases hrc : reconcile_model_suggestion led c with
        | error e => simp [isOkE, hrc]
        | ok led2 =>
          cases happ : (_apply_labels deps email.id led2.final_labels email.existing_labels
              dry_run).2 with
          | error e => simp [isOkE, hrc, happ]
          | ok u => simp [isOkE, hrc, happ]

/-- **C9**: constructing `EmailTriageWorkflow` always raises before any
message can be processed, whatever the collaborator calls return: the
constructor reaches `Config.load_email_groups()`, an attribute the `Config`
class does not define (`AttributeError`), and the engine construction it
would perform next passes an `email_groups` keyword that
`DeterministicRuleEngine.__init__` does not accept (`TypeError`). -/
theorem c9_workflow_init_always_fails :
    (∀ (load_label_config : Except PyErr (List String))
        (gmail_client_init llm_client_init : Except PyErr Unit)
        (load_deterministic_rules : Except PyErr (List PyVal)),
      isOkE (EmailTriageWorkflow_init load_label_config gmail_client_init llm_client_init
        load_deterministic_rules) = false) ∧
    Config.getattr "load_email_groups" =
      .error (.attributeError "type object 'Config' has no attribute 'load_email_groups'") ∧
    acceptsKeyword engine_init_params "email_groups" = false := by
  refine ⟨?_, rfl, rfl⟩
  intro c1 c2 c3 c4
  cases c1 <;> cases c2 <;> cases c3 <;> rfl

/-- Counting provider calls in the label-apply loop: with distinct labels and
a collaborator that does not raise, a label already present among the
existing labels is never applied, and any other listed label is applied
exactly once. -/
theorem applyLabelsLoop_count (deps : TriageDeps) (email_id : String)
    (existing_labels : List String) (l : String) :
    ∀ labels : List String, labels.Nodup →
      (∀ lab, deps.apply_label email_id lab = .ok ()) →
      (applyLabelsLoop deps email_id existing_labels labels).1.count
          (TriageEvent.applyLabel email_id l) =
        if l ∈ labels ∧ l ∉ existing_labels then 1 else 0 := by
  intro labels
  induction labels with
  | nil => intro _ _; simp [applyLabelsLoop]
  | cons a rest ih =>
    intro hnd happly
    have hnd' := List.nodup_cons.mp hnd
    have ihr := ih hnd'.2 happly
    simp only [applyLabelsLoop]
    split
    · rename_i hmem
      rw [ihr]
      by_cases hla : l = a
      · subst hla
        have hlex : l ∈ existing_labels := by simpa using hmem
        simp [hlex]
      · simp [List.mem_cons, hla]
    · rename_i hnmem
      have hnex : a ∉ existing_labels := by simpa using hnmem
      rw [happly a]
      simp only [List.count_cons, beq_iff_eq]
      rw [ihr]
      by_cases hla : l = a
      · subst hla
        simp [hnd'.1, hnex]
      · have hal : ¬a = l := fun h => hla h.symm
        simp only [TriageEvent.applyLabel.injEq]
        simp [List.mem_cons, hla, hal]

/-- **C8**: at the provider-apply step outside dry-run, for distinct decided
labels and a non-raising provider, a decided label already present among the
message's existing labels is never passed to `apply_label` (count `0`), and
every decided label not already present is applied exactly once (count `1`).
`final_labels()` always yields distinct labels (they are the keys of the
decisions dict), so the distinctness hypothesis holds at the call site. -/
theorem c8_apply_once :
    ∀ (deps : TriageDeps) (email_id : String) (labels existing_labels : List String)
      (l : String),
      labels.Nodup →
      (∀ lab, deps.apply_label email_id lab = .ok ()) →
      (_apply_labels deps email_id labels existing_labels false).1.count
          (TriageEvent.applyLabel email_id l) =
        if l ∈ labels ∧ l ∉ existing_labels then 1 else 0 := by
  intro deps email_id labels existing_labels l hnd happly
  unfold _apply_labels
  simp only [Bool.false_eq_true, if_false]
  exact applyLabelsLoop_count deps email_id existing_labels l labels hnd happly

/-- Witness for **C8** at concrete inputs: `fyi` is already on the message
and is not re-applied; `response-required` is applied exactly once. -/
theorem c8_apply_once_witness :
    (_apply_labels depsFix "msg_1" ["response-required", "fyi"] ["fyi"] false).1.count
        (TriageEvent.applyLabel "msg_1" "response-required") = 1 ∧
    (_apply_labels depsFix "msg_1" ["response-required", "fyi"] ["fyi"] false).1.count
        (TriageEvent.applyLabel "msg_1" "fyi") = 0 := by
  constructor
  · have h := c8_apply_once depsFix "msg_1" ["response-required", "fyi"] ["fyi"]
      "response-required" (by decide) (fun lab => rfl)
    simpa using h
  · have h := c8_apply_once depsFix "msg_1" ["response-required", "fyi"] ["fyi"]
      "fyi" (by decide) (fun lab => rfl)
    simpa using h

/-- **C10**: the recipient operators `only_me`, `not_on_to`, `cc_me`, `to_me`
and `sender_in_recipients` compare recipient addresses verbatim — a to/cc/bcc
entry counts as the mailbox owner exactly when it is character-for-character
equal (string equality) to an entry of the owner address set, and a recipient
counts as the sender exactly when it equals the lower-cased sender — so a
recipient differing only in letter case does not match; `includes_any`, by
contrast, lower-cases both sides.  The final two conjuncts show the contrast
on a concrete case-differing recipient. -/
theorem c10_recipient_ops_verbatim :
    (∀ ctx : RuleContext, _match_recipients (.dict [("to_me", .bool true)]) ctx =
      .ok (decide (∃ addr ∈ ctx.«to», addr ∈ ctx.my_addresses))) ∧
    (∀ ctx : RuleContext, _match_recipients (.dict [("cc_me", .bool true)]) ctx =
      .ok (decide (∃ addr ∈ ctx.cc, addr ∈ ctx.my_addresses))) ∧
    (∀ ctx : RuleContext, _match_recipients (.dict [("not_on_to", .bool true)]) ctx =
      .ok (decide (∀ addr ∈ ctx.«to», addr ∉ ctx.my_addresses))) ∧
    (∀ ctx : RuleContext, _match_recipients (.dict [("only_me", .bool true)]) ctx =
      .ok (decide (ctx.all_recipients ≠ [] ∧
        ∀ addr ∈ ctx.all_recipients, addr ∈ ctx.my_addresses))) ∧
    (∀ ctx : RuleContext, _match_recipients (.dict [("sender_in_recipients", .bool true)]) ctx =
      .ok (decide (ctx.sender_lower ∈ ctx.all_recipients))) ∧
    (∀ (ctx : RuleContext) (a : String),
      _match_recipients (.dict [("includes_any", .list [.str a])]) ctx =
      .ok (decide (∃ r ∈ ctx.all_recipients, strLower r = strLower a))) ∧
    _match_recipients (.dict [("to_me", .bool true)]) ctxUpperFix = .ok false ∧
    _match_recipients (.dict [("includes_any", .list [.str "TRIAGER@example.com"])]) ctxFix =
      .ok true := by
  refine ⟨?_, ?_, ?_, ?_, ?_, ?_, ?_, ?_⟩
  · intro ctx
    by_cases hx : ∃ addr ∈ ctx.«to», addr ∈ ctx.my_addresses <;>
      simp [_match_recipients, dictGet, dictFind, hasKey, pyTruthy, List.find?, hx]
  · intro ctx
    by_cases hx : ∃ addr ∈ ctx.cc, addr ∈ ctx.my_addresses <;>
      simp [_match_recipients, dictGet, dictFind, hasKey, pyTruthy, List.find?, hx]
  · intro ctx
    by_cases hx : ∀ addr ∈ ctx.«to», addr ∉ ctx.my_addresses
    · have hne : ¬∃ x ∈ ctx.«to», x ∈ ctx.my_addresses := by
        push_neg
        exact hx
      simp [_match_recipients, dictGet, dictFind, hasKey, pyTruthy, List.find?, hne]
      exact hx
    · simp [_match_recipients, dictGet, dictFind, hasKey, pyTruthy, List.find?, hx]
  · intro ctx
    by_cases h1 : ctx.all_recipients = []
    · simp [_match_recipients, dictGet, dictFind, hasKey, pyTruthy, List.find?, h1]
    · by_cases h2 : ∀ addr ∈ ctx.all_recipients, addr ∈ ctx.my_addresses
      · have hne : ¬∃ x ∈ ctx.all_recipients, x ∉ ctx.my_addresses := by
          push_neg
          exact h2
        simp [_match_recipients, dictGet, dictFind, hasKey, pyTruthy, List.find?, h1, hne]
        exact h2
      · simp [_match_recipients, dictGet, dictFind, hasKey, pyTruthy, List.find?, h1, h2]
  · intro ctx
    by_cases hx : ctx.sender_lower ∈ ctx.all_recipients <;>
      simp [_match_recipients, dictGet, dictFind, hasKey, pyTruthy, List.find?, hx]
  · intro ctx a
    by_cases hx : ∃ r ∈ ctx.all_recipients, strLower r = strLower a <;>
      simp [_match_recipients, anyLowerMem, pyIter, pyLower, dictGet, dictFind, hasKey,
        pyTruthy, List.find?, hx]
  · rfl
  · rfl

/-- A computation already known to be `.ok` yields a witness. -/
theorem isOkE_exists {α : Type} {x : Except PyErr α} (h : isOkE x = true) :
    ∃ b, x = .ok b := by
  cases x with
  | ok b => exact ⟨b, rfl⟩
  | error e => simp [isOkE] at h

/-- A key that is absent stores nothing: `d.get(k)` is `None`. -/
theorem dictGet_of_not_hasKey {d : List (String × PyVal)} {k : String}
    (h : hasKey d k = false) : dictGet d k = .none := by
  induction d with
  | nil => rfl
  | cons kv rest ih =>
    simp only [hasKey, List.any_cons, Bool.or_eq_false_iff] at h
    simp only [dictGet, dictFind, List.find?, h.1]
    have := ih (by simp [hasKey, h.2])
    simpa [dictGet, dictFind] using this

/-- When the key is present, `dictFind` returns the `dictGet` value. -/
theorem dictFind_of_hasKey {d : List (String × PyVal)} {k : String}
    (h : hasKey d k = true) : dictFind d k = some (dictGet d k) := by
  induction d with
  | nil => simp [hasKey] at h
  | cons kv rest ih =>
    by_cases hk : (kv.1 == k) = true
    · simp [dictFind, dictGet, List.find?, hk]
    · simp only [hasKey, List.any_cons, hk, Bool.false_or] at h
      have := ih (by simpa [hasKey] using h)
      simp only [dictFind, dictGet, List.find?, hk] at this ⊢
      simpa [dictFind, dictGet] using this

/-- Lower-casing a list of string values never raises. -/
theorem lowerAll_total {vs : List PyVal} (h : ∀ v ∈ vs, isStrVal v = true) :
    ∃ ss, lowerAll vs = .ok ss := by
  induction vs with
  | nil => exact ⟨[], rfl⟩
  | cons v rest ih =>
    obtain ⟨ss, hss⟩ := ih (fun x hx => h x (List.mem_cons_of_mem v hx))
    have hv := h v (List.mem_cons_self v rest)
    cases v with
    | str s =>
      refine ⟨strLower s :: ss, ?_⟩
      simp [lowerAll, pyLower, hss]
    | int n => simp [isStrVal] at hv
    | bool b => simp [isStrVal] at hv
    | list xs => simp [isStrVal] at hv
    | dict xs => simp [isStrVal] at hv
    | none => simp [isStrVal] at hv

/-- Iterating a well-shaped truthy collection yields string values. -/
theorem iter_strs {v : PyVal} (h : wsStrIterable v = true) (ht : pyTruthy v = true) :
    ∃ es, pyIter v = .ok es ∧ ∀ x ∈ es, isStrVal x = true := by
  cases v with
  | str s =>
    refine ⟨s.data.map (fun c => .str (String.singleton c)), rfl, ?_⟩
    intro x hx
    simp only [List.mem_map] at hx
    obtain ⟨c, -, hc⟩ := hx
    simp [← hc, isStrVal]
  | list xs =>
    refine ⟨xs, rfl, ?_⟩
    intro x hx
    simp only [wsStrIterable, ht, Bool.true_eq_false, if_false] at h
    exact List.all_eq_true.mp h x hx
  | dict xs =>
    refine ⟨xs.map (fun kv : String × PyVal => PyVal.str kv.1), rfl, ?_⟩
    intro x hx
    simp only [List.mem_map] at hx
    obtain ⟨kv, -, hkv⟩ := hx
    simp [← hkv, isStrVal]
  | int n => simp [wsStrIterable, ht] at h
  | bool b => simp [wsStrIterable, ht] at h
  | none => simp [pyTruthy] at ht

/-- Iterate-then-lower on a well-shaped truthy collection never raises. -/
theorem iter_lower_total {v : PyVal} (h : wsStrIterable v = true) (ht : pyTruthy v = true) :
    ∃ es ss, pyIter v = .ok es ∧ lowerAll es = .ok ss := by
  obtain ⟨es, h1, h2⟩ := iter_strs h ht
  obtain ⟨ss, h3⟩ := lowerAll_total h2
  exact ⟨es, ss, h1, h3⟩

/-- Normalise-then-lower on a well-shaped payload never raises. -/
theorem normalize_lower_total {v : PyVal} (h : wsStrIterable v = true) :
    ∃ vs ss, normalizeVals v = .ok vs ∧ lowerAll vs = .ok ss := by
  by_cases ht : pyTruthy v = true
  · cases v with
    | str s => exact ⟨[.str s], [strLower s], rfl, rfl⟩
    | list xs =>
      obtain ⟨es, ss, h1, h2⟩ := iter_lower_total h ht
      exact ⟨es, ss, by simp [normalizeVals, ht, h1], h2⟩
    | dict xs =>
      obtain ⟨es, ss, h1, h2⟩ := iter_lower_total h ht
      exact ⟨es, ss, by simp [normalizeVals, ht, h1], h2⟩
    | int n => simp [wsStrIterable, ht] at h
    | bool b => simp [wsStrIterable, ht] at h
    | none => simp [pyTruthy] at ht
  · cases v with
    | str s => exact ⟨[.str s], [strLower s], rfl, rfl⟩
    | _ =>
      rw [Bool.not_eq_true] at ht
      exact ⟨[], [], by simp [normalizeVals, ht], rfl⟩

/-- One conjunct of the well-shaped text spec: the payload under a key is
well-shaped whether or not the key is present. -/
theorem wsStrIterable_of_conjunct {d : List (String × PyVal)} {k : String}
    (h : (!hasKey d k || wsStrIterable (dictGet d k)) = true) :
    wsStrIterable (dictGet d k) = true := by
  cases hk : hasKey d k with
  | false => simp [dictGet_of_not_hasKey hk, wsStrIterable, pyTruthy]
  | true => simpa [hk] using h

/-- An `if` of two normal computations is normal. -/
theorem isOk_ite {α : Type} {c : Prop} [inst : Decidable c] {x y : Except PyErr α}
    (hx : isOkE x = true) (hy : isOkE y = true) : isOkE (if c then x else y) = true := by
  split <;> assumption

/-- A guarded flag block of the matchers (`if flag: if cond: return False`)
is normal whenever its continuation is. -/
theorem flag_block_isOk {c1 c2 : Prop} [Decidable c1] [Decidable c2]
    {tail : Except PyErr Bool} (htail : isOkE tail = true) :
    isOkE (if c1 then if c2 then Except.ok false else tail else tail) = true := by
  split
  · exact isOk_ite rfl htail
  · exact htail

/-- A guarded single-bind block (`if flag: x = <m>; if g(x): return False`)
is normal when the bound computation is normal under the flag. -/
theorem guard_block_isOk {α : Type} {c : Prop} [Decidable c] {m : Except PyErr α}
    {g : α → Bool} {tail : Except PyErr Bool}
    (hm : c → ∃ a, m = .ok a) (htail : isOkE tail = true) :
    isOkE (if c then m >>= fun a => if g a = true then Except.ok false else tail
           else tail) = true := by
  split
  · rename_i hc
    obtain ⟨a, ha⟩ := hm hc
    rw [ha, pyBind_ok]
    exact isOk_ite rfl htail
  · exact htail

/-- A guarded two-bind block is normal when both bound computations are. -/
theorem two_bind_guard_isOk {α β : Type} {c : Prop} [Decidable c] {m : Except PyErr α}
    {k : α → Except PyErr β} {g : β → Bool} {tail : Except PyErr Bool}
    (hm : c → ∃ a, m = .ok a)
    (hk : ∀ a, m = .ok a → ∃ b, k a = .ok b)
    (htail : isOkE tail = true) :
    isOkE (if c then m >>= fun a => k a >>= fun b =>
             if g b = true then Except.ok false else tail
           else tail) = true := by
  split
  · rename_i hc
    obtain ⟨a, ha⟩ := hm hc
    obtain ⟨b, hb⟩ := hk a ha
    rw [ha, pyBind_ok, hb, pyBind_ok]
    exact isOk_ite rfl htail
  · exact htail

/-- A well-shaped int payload converts. -/
theorem pyInt_of_wsIntPayload {v : PyVal} (h : wsIntPayload v = true) :
    ∃ n, pyInt v = .ok n := by
  unfold wsIntPayload at h
  cases hv : pyInt v with
  | ok n => exact ⟨n, rfl⟩
  | error e => rw [hv] at h; simp at h

/-- The `any_in` loop is normal on string addresses. -/
theorem anyLowerMem_total {items : List String} {addrs : List PyVal}
    (h : ∀ x ∈ addrs, isStrVal x = true) : ∃ b, anyLowerMem items addrs = .ok b := by
  induction addrs with
  | nil => exact ⟨false, rfl⟩
  | cons a rest ih =>
    have ha := h a (List.mem_cons_self a rest)
    cases a with
    | str s =>
      obtain ⟨b, hb⟩ := ih (fun x hx => h x (List.mem_cons_of_mem _ hx))
      by_cases hmem : strLower s ∈ items
      · exact ⟨true, by simp [anyLowerMem, pyLower, hmem]⟩
      · exact ⟨b, by simp [anyLowerMem, pyLower, hmem, hb]⟩
    | int n => simp [isStrVal] at ha
    | bool b => simp [isStrVal] at ha
    | list xs => simp [isStrVal] at ha
    | dict xs => simp [isStrVal] at ha
    | none => simp [isStrVal] at ha

/-- The `includes_domains` loop is normal on a well-shaped truthy payload. -/
theorem anyDomainMem_total {v : PyVal} (hv : wsStrIterable v = true)
    (ht : pyTruthy v = true) :
    ∀ domains : List String, ∃ b, anyDomainMem v domains = .ok b := by
  intro domains
  obtain ⟨es, ss, h1, h2⟩ := iter_lower_total hv ht
  induction domains with
  | nil => exact ⟨false, rfl⟩
  | cons dom rest ih =>
    obtain ⟨b, hb⟩ := ih
    by_cases hmem : dom ∈ ss
    · exact ⟨true, by simp [anyDomainMem, h1, h2, hmem]⟩
    · exact ⟨b, by simp [anyDomainMem, h1, h2, hmem, hb]⟩

/-- The pattern loop is normal when every pattern is falsy or a string. -/
theorem firstPatternHit_total {address : String} {ps : List PyVal}
    (h : ∀ p ∈ ps, pyTruthy p = false ∨ isStrVal p = true) :
    ∃ b, firstPatternHit address ps = .ok b := by
  induction ps with
  | nil => exact ⟨false, rfl⟩
  | cons p rest ih =>
    obtain ⟨b, hb⟩ := ih (fun x hx => h x (List.mem_cons_of_mem _ hx))
    rcases h p (List.mem_cons_self p rest) with hf | hs
    · exact ⟨b, by simp [firstPatternHit, hf, hb]⟩
    · cases p with
      | str s =>
        by_cases ht : pyTruthy (PyVal.str s) = true
        · by_cases hc : strContains address (strLower (strLower s)) = true
          · exact ⟨true, by simp [firstPatternHit, ht, pyLower, hc]⟩
          · exact ⟨b, by simp [firstPatternHit, ht, pyLower, hc, hb]⟩
        · rw [Bool.not_eq_true] at ht
          exact ⟨b, by simp [firstPatternHit, ht, hb]⟩
      | int n => simp [isStrVal] at hs
      | bool c => simp [isStrVal] at hs
      | list xs => simp [isStrVal] at hs
      | dict xs => simp [isStrVal] at hs
      | none => simp [isStrVal] at hs

/-- `_looks_like_mailing_list` is normal on a well-shaped pattern payload. -/
theorem looks_like_mailing_list_total {address : String} {patterns : PyVal}
    (h : wsMailPatterns patterns = true) :
    ∃ b, _looks_like_mailing_list address patterns = .ok b := by
  have hdef : ∀ p ∈ default_mailing_patterns.map PyVal.str,
      pyTruthy p = false ∨ isStrVal p = true := by
    intro p hp
    simp only [List.mem_map] at hp
    obtain ⟨s, -, hs⟩ := hp
    right
    simp [← hs, isStrVal]
  by_cases ht : pyTruthy patterns = true
  · have hels : ∃ cs, pyIter patterns = .ok cs ∧
        ∀ p ∈ cs, pyTruthy p = false ∨ isStrVal p = true := by
      cases patterns with
      | str s =>
        refine ⟨_, rfl, ?_⟩
        intro p hp
        simp only [List.mem_map] at hp
        obtain ⟨c, -, hc⟩ := hp
        right
        simp [← hc, isStrVal]
      | list xs =>
        refine ⟨xs, rfl, ?_⟩
        intro p hp
        simp only [wsMailPatterns, ht, Bool.true_eq_false, if_false] at h
        have := List.all_eq_true.mp h p hp
        simpa using this
      | dict xs =>
        refine ⟨_, rfl, ?_⟩
        intro p hp
        simp only [List.mem_map] at hp
        obtain ⟨kv, -, hkv⟩ := hp
        right
        simp [← hkv, isStrVal]
      | int n => simp [wsMailPatterns, ht] at h
      | bool b => simp [wsMailPatterns, ht] at h
      | none => simp [pyTruthy] at ht
    obtain ⟨cs, h1, h2⟩ := hels
    have hall : ∀ p ∈ cs ++ default_mailing_patterns.map PyVal.str,
        pyTruthy p = false ∨ isStrVal p = true := by
      intro p hp
      rcases List.mem_append.mp hp with hp | hp
      · exact h2 p hp
      · exact hdef p hp
    obtain ⟨b, hb⟩ := @firstPatternHit_total (strLower address) _ hall
    exact ⟨b, by simp [_looks_like_mailing_list, ht, h1, hb]⟩
  · rw [Bool.not_eq_true] at ht
    obtain ⟨b, hb⟩ := @firstPatternHit_total (strLower address) _ hdef
    exact ⟨b, by simpa [_looks_like_mailing_list, ht] using hb⟩

/-- The `contains_mailing_list` loop is normal on a well-shaped payload. -/
theorem anyMailingList_total {patterns : PyVal} (h : wsMailPatterns patterns = true) :
    ∀ recipients : List String, ∃ b, anyMailingList patterns recipients = .ok b := by
  intro recipients
  induction recipients with
  | nil => exact ⟨false, rfl⟩
  | cons addr rest ih =>
    obtain ⟨b, hb⟩ := ih
    obtain ⟨r, hr⟩ := @looks_like_mailing_list_total addr _ h
    cases r with
    | true => exact ⟨true, by simp [anyMailingList, hr]⟩
    | false => exact ⟨b, by simp [anyMailingList, hr, hb]⟩

/-- Iterating an iterable value never raises. -/
theorem pyIter_of_iterable {v : PyVal} (h : isIterableVal v = true) :
    ∃ es, pyIter v = .ok es := by
  cases v <;> first | exact ⟨_, rfl⟩ | simp [isIterableVal] at h

/-- Elements produced by iterating a well-shaped collection are strings. -/
theorem iter_strs_of_ok {v : PyVal} (h : wsStrIterable v = true) {es : List PyVal}
    (hiter : pyIter v = .ok es) : ∀ x ∈ es, isStrVal x = true := by
  by_cases ht : pyTruthy v = true
  · obtain ⟨es', h1, h2⟩ := iter_strs h ht
    rw [h1] at hiter
    cases hiter
    exact h2
  · rw [Bool.not_eq_true] at ht
    cases v with
    | str s =>
      have : s = "" := by
        rw [← String.isEmpty_iff]
        simpa [pyTruthy] using ht
      subst this
      cases hiter
      simp
    | list xs =>
      have : xs = [] := by simpa [pyTruthy] using ht
      subst this
      cases hiter
      simp
    | dict xs =>
      have : xs = [] := by simpa [pyTruthy] using ht
      subst this
      cases hiter
      simp
    | int n => simp [pyIter] at hiter
    | bool b => simp [pyIter] at hiter
    | none => simp [pyIter] at hiter

set_option maxHeartbeats 2000000 in
set_option maxRecDepth 4000 in
/-- `_match_text` never raises on a well-shaped text spec. -/
theorem match_text_isOk {spec : PyVal} (hws : wsTextSpec spec = true) (tv : String) :
    isOkE (_match_text spec tv) = true := by
  by_cases htr : pyTruthy spec = false
  · simp [_match_text, htr, isOkE]
  · cases spec with
    | str s => simp [_match_text, htr, isOkE]
    | int n => simp [_match_text, htr, isOkE]
    | bool b => simp [_match_text, htr, isOkE]
    | list xs => simp [_match_text, htr, isOkE]
    | none => simp [pyTruthy] at htr
    | dict d =>
      simp only [wsTextSpec, Bool.and_eq_true] at hws
      obtain ⟨⟨⟨⟨⟨hw1, hw2⟩, hw3⟩, hw4⟩, hw5⟩, hw6⟩ := hws
      obtain ⟨vs1, ss1, hn1, hl1⟩ := normalize_lower_total (wsStrIterable_of_conjunct hw1)
      obtain ⟨vs2, ss2, hn2, hl2⟩ := normalize_lower_total (wsStrIterable_of_conjunct hw2)
      obtain ⟨vs3, ss3, hn3, hl3⟩ := normalize_lower_total (wsStrIterable_of_conjunct hw3)
      obtain ⟨vs4, ss4, hn4, hl4⟩ := normalize_lower_total (wsStrIterable_of_conjunct hw4)
      obtain ⟨vs5, ss5, hn5, hl5⟩ := normalize_lower_total (wsStrIterable_of_conjunct hw5)
      obtain ⟨vs6, ss6, hn6, hl6⟩ := normalize_lower_total (wsStrIterable_of_conjunct hw6)
      unfold _match_text
      simp only [htr, Bool.true_eq_false, if_false, hn1, hl1, hn2, hl2, hn3, hl3, hn4, hl4,
        hn5, hl5, hn6, hl6, pyPure_def, pyBind_ok]
      repeat (first | rfl | apply isOk_ite)

/-- A `_match_sender` payload block is normal when its payload is
well-shaped. -/
theorem sender_block_isOk {v : PyVal} (hv : wsStrIterable v = true)
    {p : List String → Bool} {tail : Except PyErr Bool} (htail : isOkE tail = true) :
    isOkE (if pyTruthy v = true then
        pyIter v >>= fun entries => lowerAll entries >>= fun lowered =>
          if p lowered = true then Except.ok false else tail
      else tail) = true := by
  by_cases ht : pyTruthy v = true
  · obtain ⟨es, ss, h1, h2⟩ := iter_lower_total hv ht
    simp only [ht, if_true, h1, pyBind_ok, h2]
    exact isOk_ite rfl htail
  · simp [ht, htail]

/-- `_match_sender` never raises on a well-shaped sender spec. -/
theorem match_sender_isOk {spec : PyVal} (hws : wsSenderSpec spec = true)
    (ctx : RuleContext) : isOkE (_match_sender spec ctx) = true := by
  cases spec with
  | dict d =>
    simp only [wsSenderSpec, Bool.and_eq_true] at hws
    obtain ⟨⟨⟨⟨hw1, hw2⟩, hw3⟩, hw4⟩, hw5⟩ := hws
    unfold _match_sender
    dsimp only
    apply sender_block_isOk hw1
    apply sender_block_isOk hw2
    apply sender_block_isOk hw3
    apply sender_block_isOk hw4
    by_cases hc : pyTruthy (dictGet d "contains") = true
    · obtain ⟨r, hr⟩ := isOkE_exists (match_text_isOk hw5 ctx.sender_lower)
      simp only [hc, if_true, hr, pyBind_ok]
      exact isOk_ite rfl rfl
    · simp [hc, isOkE]
  | str s => simp [wsSenderSpec] at hws
  | int n => simp [wsSenderSpec] at hws
  | bool b => simp [wsSenderSpec] at hws
  | list xs => simp [wsSenderSpec] at hws
  | none => simp [wsSenderSpec] at hws

set_option maxHeartbeats 2000000 in
set_option maxRecDepth 4000 in
/-- `_match_recipients` never raises on a well-shaped recipients spec. -/
theorem match_recipients_isOk {spec : PyVal} (hws : wsRecipientsSpec spec = true)
    (ctx : RuleContext) : isOkE (_match_recipients spec ctx) = true := by
  cases spec with
  | dict d =>
    simp only [wsRecipientsSpec, Bool.and_eq_true] at hws
    obtain ⟨⟨⟨⟨hw1, hw2⟩, hw3⟩, hw4⟩, hw5⟩ := hws
    unfold _match_recipients
    dsimp only
    apply flag_block_isOk
    apply flag_block_isOk
    apply flag_block_isOk
    apply flag_block_isOk
    apply guard_block_isOk
      (fun hc => pyInt_of_wsIntPayload (by simpa [hc] using hw1))
    apply guard_block_isOk
      (fun hc => pyInt_of_wsIntPayload (by simpa [hc] using hw2))
    apply two_bind_guard_isOk
      (fun hc => (iter_strs hw3 hc).imp (fun es h => h.1))
      (fun addrs haddrs => anyLowerMem_total (iter_strs_of_ok hw3 haddrs))
    apply guard_block_isOk
      (fun hc => anyDomainMem_total hw4 hc (ctx.all_recipients.map extract_domain))
    apply guard_block_isOk
      (fun _ => anyMailingList_total hw5 ctx.all_recipients)
    repeat (first | rfl | apply isOk_ite)
  | str s => simp [wsRecipientsSpec] at hws
  | int n => simp [wsRecipientsSpec] at hws
  | bool b => simp [wsRecipientsSpec] at hws
  | list xs => simp [wsRecipientsSpec] at hws
  | none => simp [wsRecipientsSpec] at hws

/-- A well-shaped label-set payload iterates without raising, and every
iterated element is a (hashable) string. -/
theorem labelPayload_iter {v : PyVal} (h : wsLabelPayload v = true) :
    ∃ es, pyIter v = .ok es ∧ ∀ e ∈ es, isStrVal e = true := by
  cases v with
  | str s =>
    refine ⟨_, rfl, ?_⟩
    intro e he
    simp only [List.mem_map] at he
    obtain ⟨c, -, hc⟩ := he
    simp [← hc, isStrVal]
  | dict xs =>
    refine ⟨_, rfl, ?_⟩
    intro e he
    simp only [List.mem_map] at he
    obtain ⟨kv, -, hkv⟩ := he
    simp [← hkv, isStrVal]
  | list xs =>
    refine ⟨xs, rfl, ?_⟩
    intro e he
    exact List.all_eq_true.mp h e he
  | int n => simp [wsLabelPayload] at h
  | bool b => simp [wsLabelPayload] at h
  | none => simp [wsLabelPayload] at h

/-- The short-circuiting `any` of set-membership tests never raises when
every element is a string. -/
theorem anySetMember_total {labels : List String} {es : List PyVal}
    (h : ∀ e ∈ es, isStrVal e = true) : isOkE (anySetMember labels es) = true := by
  induction es with
  | nil => rfl
  | cons e rest ih =>
    have he := h e (List.mem_cons_self e rest)
    cases e with
    | str s =>
      have hrest := ih (fun x hx => h x (List.mem_cons_of_mem _ hx))
      by_cases hm : s ∈ labels
      · simp [anySetMember, strSetMember, hm, isOkE]
      · simp [anySetMember, strSetMember, hm, hrest]
    | int n => simp [isStrVal] at he
    | bool b => simp [isStrVal] at he
    | list xs => simp [isStrVal] at he
    | dict xs => simp [isStrVal] at he
    | none => simp [isStrVal] at he

/-- The short-circuiting `all` of set-membership tests never raises when
every element is a string. -/
theorem allSetMember_total {labels : List String} {es : List PyVal}
    (h : ∀ e ∈ es, isStrVal e = true) : isOkE (allSetMember labels es) = true := by
  induction es with
  | nil => rfl
  | cons e rest ih =>
    have he := h e (List.mem_cons_self e rest)
    cases e with
    | str s =>
      have hrest := ih (fun x hx => h x (List.mem_cons_of_mem _ hx))
      by_cases hm : s ∈ labels
      · simp [allSetMember, strSetMember, hm, hrest]
      · simp [allSetMember, strSetMember, hm, isOkE]
    | int n => simp [isStrVal] at he
    | bool b => simp [isStrVal] at he
    | list xs => simp [isStrVal] at he
    | dict xs => simp [isStrVal] at he
    | none => simp [isStrVal] at he

/-- A `_match_label_sets` operator block is normal when the stored payload is
well-shaped and the membership loop is normal on string elements. -/
theorem labelset_block_isOk {d : List (String × PyVal)} {k : String}
    (h : (!hasKey d k || wsLabelPayload (dictGet d k)) = true)
    {m : List PyVal → Except PyErr Bool}
    (hm : ∀ vs, (∀ e ∈ vs, isStrVal e = true) → isOkE (m vs) = true)
    {p : Bool → Bool} {tail : Except PyErr Bool} (htail : isOkE tail = true) :
    isOkE (pyInKey k (.dict d) >>= fun b => if b = true then
        pyIndexKey k (.dict d) >>= fun v => pyIter v >>= fun vs =>
          m vs >>= fun r => if p r = true then Except.ok false else tail
      else tail) = true := by
  have hin : pyInKey k (.dict d) = .ok (hasKey d k) := rfl
  rw [hin, pyBind_ok]
  by_cases hk : hasKey d k = true
  · have hidx : pyIndexKey k (.dict d) = .ok (dictGet d k) := by
      simp [pyIndexKey, dictFind_of_hasKey hk]
    have hpl : wsLabelPayload (dictGet d k) = true := by simpa [hk] using h
    obtain ⟨es, hes, hstr⟩ := labelPayload_iter hpl
    obtain ⟨r, hr⟩ := isOkE_exists (hm es hstr)
    simp only [hk, if_true, hidx, pyBind_ok, hes, hr]
    exact isOk_ite rfl htail
  · simp [hk, htail]

/-- `_match_label_sets` never raises on a well-shaped label-set spec. -/
theorem match_label_sets_isOk {spec : PyVal} (hws : wsLabelSpec spec = true)
    (labels : List String) : isOkE (_match_label_sets spec labels) = true := by
  by_cases htr : pyTruthy spec = false
  · simp [_match_label_sets, htr, isOkE]
  · have htr' : pyTruthy spec = true := by simpa using htr
    cases spec with
    | dict d =>
      simp only [wsLabelSpec, htr', Bool.true_eq_false, if_false, Bool.and_eq_true] at hws
      obtain ⟨⟨h1, h2⟩, h3⟩ := hws
      unfold _match_label_sets
      dsimp only
      simp only [htr', Bool.true_eq_false, if_false]
      apply labelset_block_isOk h1 (fun vs hv => anySetMember_total hv)
      apply labelset_block_isOk h2 (fun vs hv => allSetMember_total hv)
      apply labelset_block_isOk h3 (fun vs hv => anySetMember_total hv)
      rfl
    | str s => simp [wsLabelSpec, htr'] at hws
    | int n => simp [wsLabelSpec, htr'] at hws
    | bool b => simp [wsLabelSpec, htr'] at hws
    | list xs => simp [wsLabelSpec, htr'] at hws
    | none => simp [pyTruthy] at htr'

/-- Fidelity of the error path: an unhashable element in a label-set payload
(here the list `[]` inside `has_any`) raises `TypeError` from `label in
labels` and aborts condition evaluation, so such a payload is correctly
outside `WellShapedCond`. -/
theorem label_sets_unhashable_raises :
    _match_label_sets (.dict [("has_any", .list [.list []])]) ["x"] =
      .error (.typeError "unhashable type") ∧
    _evaluate_condition (.dict [("existing_labels", .dict [("has_any", .list [.list []])])])
      ctxFix ledFix = .error (.typeError "unhashable type") ∧
    WellShapedCond (.dict [("existing_labels", .dict [("has_any", .list [.list []])])]) =
      false := by
  refine ⟨rfl, ?_, ?_⟩
  · simp only [_evaluate_condition, pySize]
    rfl
  · simp only [WellShapedCond, pySize]
    rfl

/-- Joint totality of the fuel-indexed evaluator: a well-shaped condition
(at the same budget) always evaluates to a boolean. -/
theorem evalN_total : ∀ fuel : Nat,
    (∀ (cond : PyVal) (ctx : RuleContext) (led : LabelDecisions),
      wsN fuel cond = true → isOkE (evalN fuel cond ctx led) = true) ∧
    (∀ (xs : List PyVal) (ctx : RuleContext) (led : LabelDecisions),
      wsListN fuel xs = true →
        isOkE (evalConjN fuel xs ctx led) = true ∧
        isOkE (evalDisjN fuel xs ctx led) = true) := by
  intro fuel
  induction fuel with
  | zero =>
    constructor
    · intro cond ctx led h
      simp [wsN] at h
    · intro xs ctx led h
      simp [wsListN] at h
  | succ f ih =>
    obtain ⟨ihc, ihl⟩ := ih
    constructor
    · intro cond ctx led h
      by_cases htr : pyTruthy cond = false
      · simp [evalN, htr, isOkE]
      · cases cond with
        | str s => simp [evalN, htr, isOkE]
        | int n => simp [evalN, htr, isOkE]
        | bool b => simp [evalN, htr, isOkE]
        | list xs => simp [evalN, htr, isOkE]
        | none => simp [pyTruthy] at htr
        | dict d =>
          simp only [wsN] at h
          simp only [evalN]
          rw [if_neg htr] at h ⊢
          by_cases h1 : hasKey d "all" = true
          · rw [if_pos h1] at h ⊢
            cases hv : dictGet d "all" with
            | list xs => rw [hv] at h; exact (ihl xs ctx led h).1
            | str s => rfl
            | dict es => rfl
            | int n => rw [hv] at h; exact Bool.noConfusion h
            | bool b => rw [hv] at h; exact Bool.noConfusion h
            | none => rw [hv] at h; exact Bool.noConfusion h
          · rw [if_neg h1] at h ⊢
            by_cases h2 : hasKey d "any" = true
            · rw [if_pos h2] at h ⊢
              cases hv : dictGet d "any" with
              | list xs => rw [hv] at h; exact (ihl xs ctx led h).2
              | str s => rfl
              | dict es => rfl
              | int n => rw [hv] at h; exact Bool.noConfusion h
              | bool b => rw [hv] at h; exact Bool.noConfusion h
              | none => rw [hv] at h; exact Bool.noConfusion h
            · rw [if_neg h2] at h ⊢
              by_cases h3 : hasKey d "not" = true
              · rw [if_pos h3] at h ⊢
                obtain ⟨b, hb⟩ := isOkE_exists (ihc (dictGet d "not") ctx led h)
                simp [hb, isOkE]
              · rw [if_neg h3] at h ⊢
                by_cases h4 : hasKey d "sender" = true
                · rw [if_pos h4] at h ⊢
                  exact match_sender_isOk h ctx
                · rw [if_neg h4] at h ⊢
                  by_cases h5 : hasKey d "subject" = true
                  · rw [if_pos h5] at h ⊢
                    exact match_text_isOk h ctx.subject_lower
                  · rw [if_neg h5] at h ⊢
                    by_cases h6 : (hasKey d "body" || hasKey d "content") = true
                    · rw [if_pos h6] at h ⊢
                      exact match_text_isOk h ctx.content_lower
                    · rw [if_neg h6] at h ⊢
                      by_cases h7 : hasKey d "snippet" = true
                      · rw [if_pos h7] at h ⊢
                        exact match_text_isOk h ctx.snippet_lower
                      · rw [if_neg h7] at h ⊢
                        by_cases h8 : hasKey d "recipients" = true
                        · rw [if_pos h8] at h ⊢
                          exact match_recipients_isOk h ctx
                        · rw [if_neg h8] at h ⊢
                          by_cases h9 : hasKey d "existing_labels" = true
                          · rw [if_pos h9] at h ⊢
                            exact match_label_sets_isOk h ctx.existing_labels
                          · rw [if_neg h9] at h ⊢
                            by_cases h10 : hasKey d "decided_labels" = true
                            · rw [if_pos h10] at h ⊢
                              exact match_label_sets_isOk h led.pending_additions
                            · rw [if_neg h10] at h ⊢
                              by_cases h11 : hasKey d "excluded_labels" = true
                              · rw [if_pos h11] at h ⊢
                                exact match_label_sets_isOk h led.excluded_labels
                              · rw [if_neg h11] at h ⊢
                                rfl
    · intro xs ctx led h
      cases xs with
      | nil =>
        constructor <;> simp [evalConjN, evalDisjN, isOkE]
      | cons x rest =>
        simp only [wsListN, Bool.and_eq_true] at h
        obtain ⟨hx, hrest⟩ := h
        obtain ⟨b, hb⟩ := isOkE_exists (ihc x ctx led hx)
        have hrestok := ihl rest ctx led hrest
        constructor
        · cases b with
          | true => simpa [evalConjN, hb] using hrestok.1
          | false => simp [evalConjN, hb, isOkE]
        · cases b with
          | true => simp [evalDisjN, hb, isOkE]
          | false => simpa [evalDisjN, hb] using hrestok.2

/-- **C5** counterexample: the claim that condition evaluation never raises
is false — a `sender` leaf whose payload is a bare string raises
`AttributeError` (Python evaluates `spec.get("in")` on a `str`), aborting
the message instead of degrading to `False`. -/
theorem c5_counterexample :
    _evaluate_condition (.dict [("sender", .str "x")]) ctxFix ledFix =
      .error (.attributeError "object has no attribute get") := by
  simp only [_evaluate_condition, pySize]
  rfl

/-- **C5** as amended: (i) for every condition whose recognised-leaf operator
payloads are well-shaped (`WellShapedCond`), evaluation returns a boolean
and never raises; (ii) a truthy dict condition none of whose keys is a
recognised attribute key evaluates to `false` (fail-closed, logged); (iii)
any truthy non-dict condition evaluates to `false`.  Malformed operator
payloads under a recognised key, however, may raise, as the counterexample
shows. -/
theorem c5_fail_closed_amended :
    (∀ (cond : PyVal) (ctx : RuleContext) (led : LabelDecisions),
      WellShapedCond cond = true → ∃ b, _evaluate_condition cond ctx led = .ok b) ∧
    (∀ (d : List (String × PyVal)) (ctx : RuleContext) (led : LabelDecisions),
      pyTruthy (.dict d) = true → hasRecognizedKey d = false →
      _evaluate_condition (.dict d) ctx led = .ok false) ∧
    (∀ (v : PyVal) (ctx : RuleContext) (led : LabelDecisions),
      pyTruthy v = true → isDictVal v = false →
      _evaluate_condition v ctx led = .ok false) := by
  refine ⟨?_, ?_, ?_⟩
  · intro cond ctx led hws
    exact isOkE_exists ((evalN_total (pySize cond + 1)).1 cond ctx led hws)
  · intro d ctx led htr hnk
    simp only [hasRecognizedKey, recognizedKeys, List.any_cons, List.any_nil,
      Bool.or_eq_false_iff, Bool.or_false] at hnk
    obtain ⟨hk1, hk2, hk3, hk4, hk5, hk6, hk7, hk8, hk9, hk10, hk11, hk12⟩ := hnk
    unfold _evaluate_condition
    simp [evalN, htr, hk1, hk2, hk3, hk4, hk5, hk6, hk7, hk8, hk9, hk10, hk11, hk12]
  · intro v ctx led htr hnd
    cases v with
    | dict d => simp [isDictVal] at hnd
    | none => simp [pyTruthy] at htr
    | str s => simp [_evaluate_condition, evalN, htr]
    | int n => simp [_evaluate_condition, evalN, htr]
    | bool b => simp [_evaluate_condition, evalN, htr]
    | list xs => simp [_evaluate_condition, evalN, htr]

/-- Witness for the amended **C5** at concrete inputs: the well-shaped
Scenario D condition evaluates without raising; a truthy dict with only an
unrecognised key and a truthy non-dict both evaluate to `false`. -/
theorem c5_fail_closed_amended_witness :
    WellShapedCond (.dict [("all", .list [
        .dict [("sender", .dict [("domains", .list [.str "example.com"])])],
        .dict [("not", .dict [("existing_labels", .dict [("has_any", .list [.str "done"])])])]])])
      = true ∧
    (∃ b, _evaluate_condition (.dict [("all", .list [
        .dict [("sender", .dict [("domains", .list [.str "example.com"])])],
        .dict [("not", .dict [("existing_labels", .dict [("has_any", .list [.str "done"])])])]])])
      ctxFix ledFix = .ok b) ∧
    _evaluate_condition (.dict [("unrecognised", .int 1)]) ctxFix ledFix = .ok false ∧
    _evaluate_condition (.str "zz") ctxFix ledFix = .ok false := by
  refine ⟨?_, ?_, ?_, ?_⟩
  · simp only [WellShapedCond, pySize]
    rfl
  · exact c5_fail_closed_amended.1 _ ctxFix ledFix (by simp only [WellShapedCond, pySize]; rfl)
  · exact c5_fail_closed_amended.2.1 [("unrecognised", .int 1)] ctxFix ledFix (by rfl) (by rfl)
  · exact c5_fail_closed_amended.2.2 (.str "zz") ctxFix ledFix (by rfl) (by rfl)
